import Mathlib

/-!
# meteosatlib: geostationary projection, image metadata and sample buffers

A shallow embedding of

* `proj/Geos.cpp` (`Geos::mapToProjected`, `Geos::projectedToMap`),
* `conv/ImageData.cpp` (`Image::pixelSize`, `Image::forecastSeconds2000`,
  `ImageData::decimalScale`, `ImageDumper::processImage`),
* `msat/ImportSAFH5.cpp` (the bits-per-pixel computation of `acquireImage`),

followed by the properties established about them.

Numbers of C type `double` are idealised to exact real arithmetic (type `Dbl`
below): every operation is the exact real operation, and an operation that has
no real result gives `Dbl.nan`.
-/

open Real

namespace msat

noncomputable section

/-! ## Exact-arithmetic doubles -/

/-- A C `double` in exact arithmetic. `fin r` is the real number `r`. `nan` is
the result of an operation without a real value: the square root of a negative
number, `asin` outside `[-1, 1]`, `log10` of a non-positive number, a division
by zero (where IEEE 754 gives a NaN or an infinity; the two are not told
apart here). Any operation on `nan` gives `nan` again. -/
inductive Dbl where
  | fin (r : ℝ)
  | nan

namespace Dbl

/-- Lifting of a total unary real function (`-x`, `sin`, `cos`, `atan`, ...). -/
def map (f : ℝ → ℝ) : Dbl → Dbl
  | fin a => fin (f a)
  | nan => nan

/-- Lifting of a total binary real function (`+`, `-`, `*`). -/
def map₂ (f : ℝ → ℝ → ℝ) : Dbl → Dbl → Dbl
  | fin a, fin b => fin (f a b)
  | _, _ => nan

instance : Add Dbl := ⟨map₂ (· + ·)⟩

instance : Sub Dbl := ⟨map₂ (· - ·)⟩

instance : Mul Dbl := ⟨map₂ (· * ·)⟩

instance : Neg Dbl := ⟨map (fun a => -a)⟩

/-- The C operator `/` on doubles; no real result for a zero divisor. -/
def div : Dbl → Dbl → Dbl
  | fin a, fin b => if b = 0 then nan else fin (a / b)
  | _, _ => nan

instance : Div Dbl := ⟨div⟩

/-- The C function `sqrt`; no real result for a negative argument. -/
def sqrt : Dbl → Dbl
  | fin a => if a < 0 then nan else fin (Real.sqrt a)
  | nan => nan

/-- The C function `pow(x, 2.0)`, with the literal exponent as a natural number. -/
def pow (x : Dbl) (n : ℕ) : Dbl := map (fun a => a ^ n) x

/-- The C function `sin`. -/
def sin : Dbl → Dbl := map Real.sin

/-- The C function `cos`. -/
def cos : Dbl → Dbl := map Real.cos

/-- The C function `tan`. At the poles of the tangent this is Mathlib's total
`Real.tan`; no property below depends on the value taken there. -/
def tan : Dbl → Dbl := map Real.tan

/-- The C function `atan`. -/
def atan : Dbl → Dbl := map Real.arctan

/-- The C function `asin`; no real result outside `[-1, 1]`. -/
def asin : Dbl → Dbl
  | fin a => if -1 ≤ a ∧ a ≤ 1 then fin (Real.arcsin a) else nan
  | nan => nan

end Dbl

/-- Outcome of a C++ call: the value it returns, or the exception it throws. -/
inductive Outcome (α : Type) where
  | returned (a : α)
  | thrown (what : String)

/-! ## `proj/Geos.cpp` -/

/-- The macros of `proj/const.h` used by `Geos.cpp`, and `EARTH_RADIUS` (the
equatorial radius) and `ORBIT_RADIUS` of `parameters.h` used by
`ImageData.cpp`. Neither header is among the files covered here, so the values
are parameters. -/
structure Const where
  /-- equatorial radius of the Earth -/
  EARTH_RADIUS : ℝ
  /-- polar radius of the Earth -/
  EARTH_RPOL : ℝ
  /-- squared eccentricity `e²` -/
  EARTH_E2 : ℝ
  /-- the complement `1 - e²` -/
  EARTH_1E2 : ℝ
  /-- the inverse complement `1 / (1 - e²)` -/
  EARTH_IE2 : ℝ
  /-- nominal orbit radius -/
  ORBIT_RADIUS : ℝ

/-- The geodetic relations between the constants: `R_pol² = R_eq² (1 - e²)`,
`0 < e² < 1`, and the two derived macros are what their names say. -/
structure Const.Consistent (k : Const) : Prop where
  radius_pos : 0 < k.EARTH_RADIUS
  rpol_pos : 0 < k.EARTH_RPOL
  e2_pos : 0 < k.EARTH_E2
  e2_lt_one : k.EARTH_E2 < 1
  rpol_sq : k.EARTH_RPOL ^ 2 = k.EARTH_RADIUS ^ 2 * (1 - k.EARTH_E2)
  one_e2 : k.EARTH_1E2 = 1 - k.EARTH_E2
  inv_e2 : k.EARTH_IE2 = 1 / (1 - k.EARTH_E2)

/-- Sample constants: the radii of the CGMS LRIT/HRIT reference ellipsoid
(6378.169 km and 6356.5838 km), the eccentricity derived from them, and the
nominal geostationary orbit radius 42164 km. -/
def cgms : Const where
  EARTH_RADIUS := 6378169 / 1000
  EARTH_RPOL := 63565838 / 10000
  EARTH_E2 := 1 - (63565838 / 10000) ^ 2 / (6378169 / 1000) ^ 2
  EARTH_1E2 := (63565838 / 10000) ^ 2 / (6378169 / 1000) ^ 2
  EARTH_IE2 := (6378169 / 1000) ^ 2 / (63565838 / 10000) ^ 2
  ORBIT_RADIUS := 42164

/-- Sample constants for which the literal of `projectedToMap` is exact at
the nominal orbit radius: the equatorial radius is `√40681040` (about
6378.16902 km, since `42164² - 40681040 = 1737121856`), with the flattening of
the reference ellipsoid. -/
def literalConst : Const where
  EARTH_RADIUS := Real.sqrt 40681040
  EARTH_RPOL := Real.sqrt 40681040 * ((63565838 / 10000) / (6378169 / 1000))
  EARTH_E2 := 1 - ((63565838 / 10000) / (6378169 / 1000)) ^ 2
  EARTH_1E2 := ((63565838 / 10000) / (6378169 / 1000)) ^ 2
  EARTH_IE2 := 1 / ((63565838 / 10000) / (6378169 / 1000)) ^ 2
  ORBIT_RADIUS := 42164

/-- The members of `class Geos`. -/
structure Geos where
  sublon : ℝ
  orbitRadius : ℝ

/-- `struct MapPoint`: latitude and longitude in degrees. -/
structure MapPoint where
  lat : Dbl
  lon : Dbl

/-- `struct ProjectedPoint`: the view angles in degrees. -/
structure ProjectedPoint where
  x : Dbl
  y : Dbl

/-- The local variables of `Geos::mapToProjected`. -/
structure MapToProjectedLocals where
  lat : Dbl
  lon : Dbl
  c_lat : Dbl
  rl : Dbl
  r1 : Dbl
  r2 : Dbl
  r3 : Dbl
  rn : Dbl

/-- The body of `Geos::mapToProjected` up to the computation of `rn`. -/
def Geos.mapToProjectedLocals (k : Const) (g : Geos) (m : MapPoint) : MapToProjectedLocals :=
  let lat := m.lat * Dbl.fin π / Dbl.fin 180
  let lon := (m.lon - Dbl.fin g.sublon) * Dbl.fin π / Dbl.fin 180
  let c_lat := Dbl.atan (Dbl.fin k.EARTH_1E2 * Dbl.tan lat)
  let rl := Dbl.fin k.EARTH_RPOL /
    Dbl.sqrt (Dbl.fin 1 - Dbl.fin k.EARTH_E2 * Dbl.pow (Dbl.cos c_lat) 2)
  let r1 := Dbl.fin g.orbitRadius - rl * Dbl.cos c_lat * Dbl.cos lon
  let r2 := (-rl) * Dbl.cos c_lat * Dbl.sin lon
  let r3 := rl * Dbl.sin c_lat
  let rn := Dbl.sqrt (r1 * r1 + r2 * r2 + r3 * r3)
  { lat := lat, lon := lon, c_lat := c_lat, rl := rl, r1 := r1, r2 := r2, r3 := r3, rn := rn }

/-- `Geos::mapToProjected`. The function has no `throw` and no other way to
report a failure: it always returns the point it has written to `p`. -/
def Geos.mapToProjected (k : Const) (g : Geos) (m : MapPoint) : Outcome ProjectedPoint :=
  let v := g.mapToProjectedLocals k m
  Outcome.returned
    { x := Dbl.atan ((-v.r2) / v.r1) * Dbl.fin 180 / Dbl.fin π
      y := Dbl.asin ((-v.r3) / v.rn) * Dbl.fin 180 / Dbl.fin π }

/-- The integer literal `1737121856` of `Geos::projectedToMap`. -/
def Geos.sdLiteral : ℝ := 1737121856

/-- The argument of the `sqrt` that defines `sd` in `Geos::projectedToMap`, for
view angles `x`, `y` in radians. -/
def Geos.sdRadicand (k : Const) (g : Geos) (x y : Dbl) : Dbl :=
  Dbl.pow (Dbl.fin g.orbitRadius * Dbl.cos x * Dbl.cos y) 2 -
    (Dbl.pow (Dbl.cos y) 2 + Dbl.fin k.EARTH_IE2 * Dbl.pow (Dbl.sin y) 2) *
      Dbl.fin Geos.sdLiteral

/-- The local variables of `Geos::projectedToMap`. -/
structure ProjectedToMapLocals where
  x : Dbl
  y : Dbl
  sd : Dbl
  sn : Dbl
  s1 : Dbl
  s2 : Dbl
  s3 : Dbl
  sxy : Dbl

/-- The body of `Geos::projectedToMap` up to the computation of `sxy`. -/
def Geos.projectedToMapLocals (k : Const) (g : Geos) (p : ProjectedPoint) :
    ProjectedToMapLocals :=
  let x := p.x * Dbl.fin π / Dbl.fin 180
  let y := p.y * Dbl.fin π / Dbl.fin 180
  let sd := Dbl.sqrt (g.sdRadicand k x y)
  let sn := (Dbl.fin g.orbitRadius * Dbl.cos x * Dbl.cos y - sd) /
    (Dbl.pow (Dbl.cos y) 2 + Dbl.fin k.EARTH_IE2 * Dbl.pow (Dbl.sin y) 2)
  let s1 := Dbl.fin g.orbitRadius - sn * Dbl.cos x * Dbl.cos y
  let s2 := sn * Dbl.sin x * Dbl.cos y
  let s3 := (-sn) * Dbl.sin y
  let sxy := Dbl.sqrt (s1 * s1 + s2 * s2)
  { x := x, y := y, sd := sd, sn := sn, s1 := s1, s2 := s2, s3 := s3, sxy := sxy }

/-- `Geos::projectedToMap`. Like `mapToProjected` it has no `throw`: it always
returns the point it has written to `m`. -/
def Geos.projectedToMap (k : Const) (g : Geos) (p : ProjectedPoint) : Outcome MapPoint :=
  let v := g.projectedToMapLocals k p
  Outcome.returned
    { lon := Dbl.atan (v.s2 / v.s1) * Dbl.fin 180 / Dbl.fin π + Dbl.fin g.sublon
      lat := Dbl.atan (Dbl.fin k.EARTH_IE2 * (v.s3 / v.sxy)) * Dbl.fin 180 / Dbl.fin π }

/-- The composition `projectedToMap(mapToProjected(m))`. -/
def Geos.roundTrip (k : Const) (g : Geos) (m : MapPoint) : Outcome MapPoint :=
  match g.mapToProjected k m with
  | Outcome.returned p => g.projectedToMap k p
  | Outcome.thrown what => Outcome.thrown what

/-- The geographic point of latitude `lat` and longitude `lon` (degrees, with
`|lat| < 90` and `|lon - sublon| < 90`) is strictly inside the disk visible from
the satellite: at the surface point, the outward normal of the ellipsoid makes
an acute angle with the direction to the satellite. With `P₁` the coordinate
of the surface point along the axis from the Earth's centre to the satellite,
this is `R_eq² < orbitRadius · P₁`. -/
def Geos.strictlyVisible (k : Const) (g : Geos) (lat lon : ℝ) : Prop :=
  |lat| < 90 ∧ |lon - g.sublon| < 90 ∧
    k.EARTH_RADIUS ^ 2 < g.orbitRadius *
      (k.EARTH_RPOL /
          Real.sqrt (1 - k.EARTH_E2 *
            Real.cos (Real.arctan (k.EARTH_1E2 * Real.tan (lat * π / 180))) ^ 2) *
        Real.cos (Real.arctan (k.EARTH_1E2 * Real.tan (lat * π / 180))) *
        Real.cos ((lon - g.sublon) * π / 180))

/-! ## `conv/ImageData.cpp`: real-valued members -/

/-- Modelled from the spec: the macro `PI` of `parameters.h`, a header that is
not among the files covered here; the spec writes it `π`. -/
def PI : ℝ := π

namespace Dbl

/-- The C function `exp2` at an integer argument. -/
def exp2 (n : ℤ) : Dbl := fin ((2 : ℝ) ^ n)

/-- The C function `exp10` at an integer argument. -/
def exp10 (n : ℤ) : Dbl := fin ((10 : ℝ) ^ n)

/-- The C function `log10`; no real result for a non-positive argument. -/
def log10 : Dbl → Dbl
  | fin a => if 0 < a then fin (Real.logb 10 a) else nan
  | nan => nan

/-- The C function `floor`. -/
def floor : Dbl → Dbl := map (fun a => ((⌊a⌋ : ℤ) : ℝ))

/-- The conversion `(int)` of a double: truncation toward zero, defined when
the truncated value is in the range of a 32-bit `int`. -/
def toInt : Dbl → Option ℤ
  | fin a =>
    if -2147483648 ≤ (if 0 ≤ a then ⌊a⌋ else ⌈a⌉) ∧ (if 0 ≤ a then ⌊a⌋ else ⌈a⌉) ≤ 2147483647
    then some (if 0 ≤ a then ⌊a⌋ else ⌈a⌉) else none
  | nan => none

/-- The C operator `==` on doubles: equality of real numbers, false when an
operand is `nan`. -/
def eq : Dbl → Dbl → Bool
  | fin a, fin b => decide (a = b)
  | _, _ => false

end Dbl

/-- The members of `class Image` read by `pixelSize` and
`forecastSeconds2000`. -/
structure Image where
  year : ℤ
  month : ℤ
  day : ℤ
  hour : ℤ
  minute : ℤ
  column_factor : ℤ

/-- `Image::pixelSize`, before the conversion of the result to `float`. -/
def Image.pixelSize (k : Const) (img : Image) : Dbl :=
  (Dbl.fin k.ORBIT_RADIUS - Dbl.fin k.EARTH_RADIUS) *
    Dbl.tan ((Dbl.fin 1 / Dbl.fin (img.column_factor : ℝ) / Dbl.exp2 (-16)) *
      Dbl.fin PI / Dbl.fin 180)

/-- The column resolution factor of an image: the raw column factor scaled by
`2^-16`, as `ImportSAFH5` stores it (`CFAC * exp2(-16)`). -/
def Image.columnResolutionFactor (img : Image) : ℝ :=
  (img.column_factor : ℝ) * (2 : ℝ) ^ (-16 : ℤ)

/-- The members of `class ImageData` read by `decimalScale` and by the image
dumper. -/
structure ImageData where
  columns : ℤ
  lines : ℤ
  slope : Dbl

/-- `ImageData::decimalScale`; `none` when the conversion `(int)` is undefined. -/
def ImageData.decimalScale (d : ImageData) : Option ℤ :=
  match Dbl.toInt (Dbl.floor (Dbl.log10 d.slope)) with
  | none => none
  | some n =>
    let res := -n
    if Dbl.eq (Dbl.exp10 res) d.slope then some res else some (res + 1)

end

/-! ## `msat/ImportSAFH5.cpp`: bits per pixel -/

/-- The loop of `acquireImage` that finds the largest sample, started with
`max = pixels[0]` and run over the remaining samples. -/
def acquireImage.maxLoop (max : ℕ) : List ℕ → ℕ
  | [] => max
  | p :: ps => acquireImage.maxLoop (if p > max then p else max) ps

/-- The value of the C expression `max + 1` for `Sample` an unsigned type of
`bits` bits: `uint8_t` and `uint16_t` are promoted to `int`, where the sum does
not overflow; for `uint32_t` the sum is taken modulo `2^32`. -/
def acquireImage.maxPlusOne (bits : ℕ) (max : ℕ) : ℕ :=
  if bits < 32 then max + 1 else (max + 1) % 2 ^ 32

/-- The C expression `(int)ceil(log2(v))` for a natural number `v`: for
`v ≥ 1` the least `b` with `v ≤ 2^b`; for `v = 0` the logarithm is `-∞` and the
conversion to `int` is undefined. -/
def acquireImage.ceilLog2 (v : ℕ) : Option ℤ :=
  if v = 0 then none else some (Nat.clog 2 v : ℕ)

/-- The value `acquireImage<Sample>` stores in `bpp`, for `Sample` an unsigned
type of `bits` bits and the samples read into `pixels`. -/
def acquireImage.bpp (bits : ℕ) (pixels : List ℕ) : Option ℤ :=
  match pixels with
  | [] => none
  | p :: ps => acquireImage.ceilLog2 (acquireImage.maxPlusOne bits (acquireImage.maxLoop p ps))

/-! ## `conv/ImageData.cpp`: `Image::forecastSeconds2000` -/

/-- The fields of `struct tm` that `mktime` reads. -/
structure Tm where
  tm_sec : ℤ
  tm_min : ℤ
  tm_hour : ℤ
  tm_mday : ℤ
  tm_mon : ℤ
  tm_year : ℤ

/-- Leap years of the Gregorian calendar. -/
def isLeapYear (y : ℤ) : Bool :=
  decide (y % 4 = 0 ∧ (y % 100 ≠ 0 ∨ y % 400 = 0))

/-- Days of a common year before the first of the month `tm_mon` (0 = January). -/
def daysBeforeMonth : ℤ → ℤ
  | 0 => 0
  | 1 => 31
  | 2 => 59
  | 3 => 90
  | 4 => 120
  | 5 => 151
  | 6 => 181
  | 7 => 212
  | 8 => 243
  | 9 => 273
  | 10 => 304
  | _ => 334

/-- The day of the year (0 = 1 January) of a broken-down time. -/
def Tm.yday (t : Tm) : ℤ :=
  daysBeforeMonth t.tm_mon +
    (if isLeapYear (t.tm_year + 1900) ∧ 2 ≤ t.tm_mon then 1 else 0) + (t.tm_mday - 1)

/-- The C library's conversion of a broken-down UTC time to seconds since the
Unix epoch, by the POSIX formula "Seconds Since the Epoch" (with flooring
divisions, so that it also covers the years before 1970). -/
def timegm (t : Tm) : ℤ :=
  t.tm_sec + t.tm_min * 60 + t.tm_hour * 3600 + t.yday * 86400 +
    (t.tm_year - 70) * 31536000 + ((t.tm_year - 69) / 4) * 86400 -
    ((t.tm_year - 1) / 100) * 86400 + ((t.tm_year + 299) / 400) * 86400

/-- The process environment, as far as the time functions read it: the value
of the variable `TZ`, if set. -/
structure Env where
  TZ : Option String

/-- The offset from UTC, in seconds, that the C library applies to a
broken-down time after `tzset()`. It is a function of the value of `TZ`: the
empty string selects UTC; any other value, and the system default when `TZ` is
unset, are looked up in the time-zone data `tzdata`. -/
def utcOffset (tzdata : Option String → Tm → ℤ) (env : Env) (t : Tm) : ℤ :=
  if env.TZ = some "" then 0 else tzdata env.TZ t

/-- The C library's `mktime`: the broken-down time is read as local time of
the zone selected by `TZ`. -/
def mktime (tzdata : Option String → Tm → ℤ) (env : Env) (t : Tm) : ℤ :=
  timegm t - utcOffset tzdata env t

/-- `Image::forecastSeconds2000`: the value returned, and the environment left
behind (`TZ` is set to the empty string around the call of `mktime`, then put
back or unset). -/
def Image.forecastSeconds2000 (tzdata : Option String → Tm → ℤ) (env : Env) (img : Image) :
    ℤ × Env :=
  let s_epoch_2000 : ℤ := 946684800
  let itm : Tm :=
    { tm_sec := 0, tm_min := img.minute, tm_hour := img.hour, tm_mday := img.day,
      tm_mon := img.month - 1, tm_year := img.year - 1900 }
  let tz := env.TZ
  let env1 : Env := { TZ := some "" }
  let res := mktime tzdata env1 itm
  let env2 : Env :=
    match tz with
    | some v => { TZ := some v }
    | none => { TZ := none }
  (res - s_epoch_2000, env2)

/-- Length of a calendar year in days. -/
def yearLength (y : ℤ) : ℤ := if isLeapYear y then 366 else 365

/-- Length of the month `m` (1 = January) of year `y` in days. -/
def monthLength (y : ℤ) (m : ℕ) : ℤ :=
  if m = 2 then (if isLeapYear y then 29 else 28)
  else if m = 4 ∨ m = 6 ∨ m = 9 ∨ m = 11 then 30 else 31

/-- Days in the `n` years from 2000 on: 2000, ..., `2000 + n - 1`. -/
def daysOfYearsFrom2000 : ℕ → ℤ
  | 0 => 0
  | n + 1 => daysOfYearsFrom2000 n + yearLength (2000 + n)

/-- Days in the `n` years before 2000: `2000 - n`, ..., 1999. -/
def daysOfYearsBefore2000 : ℕ → ℤ
  | 0 => 0
  | n + 1 => daysOfYearsBefore2000 n + yearLength (2000 - (n + 1))

/-- The claim's reference value, by counting: the number of days from
2000-01-01 to the day `d` of month `m` of year `y`. -/
def daysSince2000 (y m d : ℤ) : ℤ :=
  (if 2000 ≤ y then daysOfYearsFrom2000 (y - 2000).toNat
    else -daysOfYearsBefore2000 (2000 - y).toNat) +
    ((List.range (m.toNat - 1)).map (fun i => monthLength y (i + 1))).sum + (d - 1)

/-- The claim's reference value: seconds from 2000-01-01T00:00:00 UTC to the
given date and time read as UTC. -/
def utcSecondsSince2000 (y m d h mi : ℤ) : ℤ :=
  daysSince2000 y m d * 86400 + h * 3600 + mi * 60

/-- The date and time fields of an image form a valid calendar date-time (and
`year - 1900` is in the range of a 32-bit `int`). -/
def Image.validDateTime (img : Image) : Prop :=
  -2147481748 ≤ img.year ∧ img.year ≤ 2147483647 ∧
    1 ≤ img.month ∧ img.month ≤ 12 ∧
    1 ≤ img.day ∧ img.day ≤ monthLength img.year img.month.toNat ∧
    0 ≤ img.hour ∧ img.hour ≤ 23 ∧ 0 ≤ img.minute ∧ img.minute ≤ 59

/-! ## `conv/ImageData.cpp`: the image dumper -/

/-- Modelled from the spec: the bounds check of `ImageData::unscaled` and
`ImageData::scaled`, whose code (`Image.tcc`) is not among the files covered
here: a read at column `x`, row `y` fails with an out-of-range condition
unless `x ∈ [0, columns)` and `y ∈ [0, lines)`. -/
def ImageData.inRange (d : ImageData) (x y : ℤ) : Bool :=
  decide (0 ≤ x ∧ x < d.columns ∧ 0 ≤ y ∧ y < d.lines)

/-- The values `0, 1, ..., n - 1` taken by a loop variable `for (int i = 0; i < n; ++i)`. -/
def loopRange (n : ℤ) : List ℤ := (List.range n.toNat).map Int.ofNat

/-- The coordinates `(c, l)` generated by the two nested loops of
`ImageDumper::processImage`, in order: `l` runs below `lines`, and `c` runs
below `lines` as well. -/
def ImageDumper.loopCoords (d : ImageData) : List (ℤ × ℤ) :=
  (loopRange d.lines).flatMap (fun l => (loopRange d.lines).map (fun c => (c, l)))

/-- The calls made on a list of loop coordinates: each pair is passed to
`unscaled` (and then to `scaled`); the first pair out of range makes `unscaled`
throw, which ends the loops. -/
def ImageDumper.callsOn (d : ImageData) : List (ℤ × ℤ) → List (ℤ × ℤ)
  | [] => []
  | (c, l) :: rest => if d.inRange c l then (c, l) :: ImageDumper.callsOn d rest else [(c, l)]

/-- The sequence of coordinates passed to `unscaled`/`scaled` by
`ImageDumper::processImage` with contents enabled. -/
def ImageDumper.processImage_calls (d : ImageData) : List (ℤ × ℤ) :=
  ImageDumper.callsOn d (ImageDumper.loopCoords d)

/-- The row-major enumeration of `[0, columns) × [0, lines)`, as pairs
`(column, line)`. -/
def rowMajor (columns lines : ℤ) : List (ℤ × ℤ) :=
  (loopRange lines).flatMap (fun l => (loopRange columns).map (fun c => (c, l)))

/-! ## Properties -/

noncomputable section

namespace Dbl

@[simp] theorem fin_add_fin (a b : ℝ) : fin a + fin b = fin (a + b) := rfl

@[simp] theorem fin_sub_fin (a b : ℝ) : fin a - fin b = fin (a - b) := rfl

@[simp] theorem fin_mul_fin (a b : ℝ) : fin a * fin b = fin (a * b) := rfl

@[simp] theorem neg_fin (a : ℝ) : -fin a = fin (-a) := rfl

@[simp] theorem nan_add (x : Dbl) : nan + x = nan := rfl

@[simp] theorem add_nan (x : Dbl) : x + nan = nan := by cases x <;> rfl

@[simp] theorem nan_sub (x : Dbl) : nan - x = nan := rfl

@[simp] theorem sub_nan (x : Dbl) : x - nan = nan := by cases x <;> rfl

@[simp] theorem nan_mul (x : Dbl) : nan * x = nan := rfl

@[simp] theorem mul_nan (x : Dbl) : x * nan = nan := by cases x <;> rfl

@[simp] theorem neg_nan : -nan = nan := rfl

@[simp] theorem nan_div (x : Dbl) : nan / x = nan := rfl

@[simp] theorem div_nan (x : Dbl) : x / nan = nan := by cases x <;> rfl

theorem fin_div_fin (a : ℝ) {b : ℝ} (hb : b ≠ 0) : fin a / fin b = fin (a / b) := by
  show div (fin a) (fin b) = _
  simp [div, hb]

theorem sqrt_fin {a : ℝ} (ha : 0 ≤ a) : sqrt (fin a) = fin (Real.sqrt a) := by
  simp [sqrt, not_lt.mpr ha]

theorem sqrt_fin_neg {a : ℝ} (ha : a < 0) : sqrt (fin a) = nan := by
  simp [sqrt, ha]

@[simp] theorem sqrt_nan : sqrt nan = nan := rfl

@[simp] theorem pow_fin (a : ℝ) (n : ℕ) : pow (fin a) n = fin (a ^ n) := rfl

@[simp] theorem pow_nan (n : ℕ) : pow nan n = nan := rfl

@[simp] theorem sin_fin (a : ℝ) : sin (fin a) = fin (Real.sin a) := rfl

@[simp] theorem cos_fin (a : ℝ) : cos (fin a) = fin (Real.cos a) := rfl

@[simp] theorem tan_fin (a : ℝ) : tan (fin a) = fin (Real.tan a) := rfl

@[simp] theorem atan_fin (a : ℝ) : atan (fin a) = fin (Real.arctan a) := rfl

@[simp] theorem sin_nan : sin nan = nan := rfl

@[simp] theorem cos_nan : cos nan = nan := rfl

@[simp] theorem atan_nan : atan nan = nan := rfl

@[simp] theorem asin_nan : asin nan = nan := rfl

theorem asin_fin {a : ℝ} (h₁ : -1 ≤ a) (h₂ : a ≤ 1) : asin (fin a) = fin (Real.arcsin a) := by
  simp [asin, h₁, h₂]

theorem fin_div_pi (a : ℝ) : fin a / fin π = fin (a / π) := fin_div_fin a Real.pi_ne_zero

theorem fin_div_180 (a : ℝ) : fin a / fin 180 = fin (a / 180) :=
  fin_div_fin a (by norm_num)

end Dbl

/-! ### The forward transform is defined everywhere -/

theorem Const.Consistent.radicand_bounds {k : Const} (hk : k.Consistent) (c : ℝ) :
    1 - k.EARTH_E2 ≤ 1 - k.EARTH_E2 * Real.cos c ^ 2 ∧
      1 - k.EARTH_E2 * Real.cos c ^ 2 ≤ 1 ∧ 0 < 1 - k.EARTH_E2 * Real.cos c ^ 2 := by
  have h0 : 0 ≤ Real.cos c ^ 2 := sq_nonneg _
  have h1 : Real.cos c ^ 2 ≤ 1 := Real.cos_sq_le_one c
  have e0 := hk.e2_pos
  have e1 := hk.e2_lt_one
  refine ⟨?_, ?_, ?_⟩ <;> nlinarith

theorem Const.Consistent.rpol_le_radius {k : Const} (hk : k.Consistent) :
    k.EARTH_RPOL ≤ k.EARTH_RADIUS := by
  have h := hk.rpol_sq
  have e0 := hk.e2_pos
  have hr := hk.radius_pos
  have hp := hk.rpol_pos
  have : k.EARTH_RPOL ^ 2 ≤ k.EARTH_RADIUS ^ 2 := by nlinarith [sq_nonneg k.EARTH_RADIUS]
  exact (pow_le_pow_iff_left₀ hp.le hr.le (by norm_num)).mp this

/-- The geocentric distance `rl` lies between the polar and the equatorial radius. -/
theorem Const.Consistent.rl_bounds {k : Const} (hk : k.Consistent) (c : ℝ) :
    k.EARTH_RPOL ≤ k.EARTH_RPOL / Real.sqrt (1 - k.EARTH_E2 * Real.cos c ^ 2) ∧
      k.EARTH_RPOL / Real.sqrt (1 - k.EARTH_E2 * Real.cos c ^ 2) ≤ k.EARTH_RADIUS := by
  obtain ⟨hlo, hhi, hpos⟩ := hk.radicand_bounds c
  have hs : 0 < Real.sqrt (1 - k.EARTH_E2 * Real.cos c ^ 2) := Real.sqrt_pos.mpr hpos
  have hs1 : Real.sqrt (1 - k.EARTH_E2 * Real.cos c ^ 2) ≤ 1 := by
    exact Real.sqrt_le_iff.mpr ⟨zero_le_one, by simpa using hhi⟩
  have hp := hk.rpol_pos
  have hr := hk.radius_pos
  constructor
  · rw [le_div_iff₀ hs]
    nlinarith
  · rw [div_le_iff₀ hs]
    have hsq : Real.sqrt (1 - k.EARTH_E2 * Real.cos c ^ 2) ^ 2 =
        1 - k.EARTH_E2 * Real.cos c ^ 2 := Real.sq_sqrt hpos.le
    have h2 : k.EARTH_RPOL ^ 2 ≤
        (k.EARTH_RADIUS * Real.sqrt (1 - k.EARTH_E2 * Real.cos c ^ 2)) ^ 2 := by
      rw [mul_pow, hsq, hk.rpol_sq]
      exact mul_le_mul_of_nonneg_left hlo (sq_nonneg _)
    exact (pow_le_pow_iff_left₀ hp.le (mul_pos hr hs).le (by norm_num)).mp h2

/-- With the orbit above the equatorial radius, the first component of the
satellite-to-surface vector is positive whatever the angles are. -/
theorem r1_pos_of_le {h R rl c l : ℝ} (hR : R < h) (h0 : 0 ≤ rl) (hrl : rl ≤ R) :
    0 < h - rl * Real.cos c * Real.cos l := by
  have hc : |Real.cos c * Real.cos l| ≤ 1 := by
    rw [abs_mul]
    exact mul_le_one₀ (Real.abs_cos_le_one c) (abs_nonneg _) (Real.abs_cos_le_one l)
  have h1 : Real.cos c * Real.cos l ≤ 1 := (abs_le.mp hc).2
  have h2 : rl * (Real.cos c * Real.cos l) ≤ rl * 1 := mul_le_mul_of_nonneg_left h1 h0
  nlinarith

/-- Evaluation of the local variables of `mapToProjected` at a real input: all
of them are real numbers, within the bounds that keep the two divisions and
the `asin` of the last two statements defined. -/
theorem Geos.mapToProjectedLocals_real (k : Const) (hk : k.Consistent) (g : Geos)
    (hg : k.EARTH_RADIUS < g.orbitRadius) (lat lon : ℝ) :
    ∃ c rl r1 r2 r3 rn : ℝ,
      g.mapToProjectedLocals k ⟨Dbl.fin lat, Dbl.fin lon⟩ =
        { lat := Dbl.fin (lat * π / 180), lon := Dbl.fin ((lon - g.sublon) * π / 180),
          c_lat := Dbl.fin c, rl := Dbl.fin rl, r1 := Dbl.fin r1, r2 := Dbl.fin r2,
          r3 := Dbl.fin r3, rn := Dbl.fin rn } ∧
      c = Real.arctan (k.EARTH_1E2 * Real.tan (lat * π / 180)) ∧
      rl = k.EARTH_RPOL / Real.sqrt (1 - k.EARTH_E2 * Real.cos c ^ 2) ∧
      r1 = g.orbitRadius - rl * Real.cos c * Real.cos ((lon - g.sublon) * π / 180) ∧
      r2 = -rl * Real.cos c * Real.sin ((lon - g.sublon) * π / 180) ∧
      r3 = rl * Real.sin c ∧
      rn = Real.sqrt (r1 * r1 + r2 * r2 + r3 * r3) ∧
      k.EARTH_RPOL ≤ rl ∧ rl ≤ k.EARTH_RADIUS ∧ 0 < r1 ∧ 0 < rn ∧ |r3| ≤ rn := by
  obtain ⟨-, -, hpos⟩ :=
    hk.radicand_bounds (Real.arctan (k.EARTH_1E2 * Real.tan (lat * π / 180)))
  obtain ⟨hlo, hhi⟩ := hk.rl_bounds (Real.arctan (k.EARTH_1E2 * Real.tan (lat * π / 180)))
  have hs := Real.sqrt_pos.mpr hpos
  have hrl0 : 0 ≤ k.EARTH_RPOL / Real.sqrt (1 - k.EARTH_E2 *
      Real.cos (Real.arctan (k.EARTH_1E2 * Real.tan (lat * π / 180))) ^ 2) :=
    le_trans hk.rpol_pos.le hlo
  have hr1 := r1_pos_of_le (c := Real.arctan (k.EARTH_1E2 * Real.tan (lat * π / 180)))
    (l := (lon - g.sublon) * π / 180) hg hrl0 hhi
  refine ⟨_, _, _, _, _, _, ?_, rfl, rfl, rfl, rfl, rfl, rfl, hlo, hhi, hr1, ?_, ?_⟩
  · simp only [Geos.mapToProjectedLocals, Dbl.fin_mul_fin, Dbl.fin_sub_fin, Dbl.fin_div_180,
      Dbl.tan_fin, Dbl.atan_fin, Dbl.cos_fin, Dbl.sin_fin, Dbl.pow_fin, Dbl.neg_fin,
      Dbl.sqrt_fin hpos.le, Dbl.fin_div_fin _ hs.ne', Dbl.fin_add_fin]
    rw [Dbl.sqrt_fin
      (add_nonneg (add_nonneg (mul_self_nonneg _) (mul_self_nonneg _)) (mul_self_nonneg _))]
  · apply Real.sqrt_pos.mpr
    have := mul_pos hr1 hr1
    exact add_pos_of_pos_of_nonneg (add_pos_of_pos_of_nonneg this (mul_self_nonneg _))
      (mul_self_nonneg _)
  · apply Real.abs_le_sqrt
    nlinarith [mul_self_nonneg (g.orbitRadius - k.EARTH_RPOL / Real.sqrt (1 - k.EARTH_E2 *
      Real.cos (Real.arctan (k.EARTH_1E2 * Real.tan (lat * π / 180))) ^ 2) *
      Real.cos (Real.arctan (k.EARTH_1E2 * Real.tan (lat * π / 180))) *
      Real.cos ((lon - g.sublon) * π / 180)),
      mul_self_nonneg (-(k.EARTH_RPOL / Real.sqrt (1 - k.EARTH_E2 *
      Real.cos (Real.arctan (k.EARTH_1E2 * Real.tan (lat * π / 180))) ^ 2)) *
      Real.cos (Real.arctan (k.EARTH_1E2 * Real.tan (lat * π / 180))) *
      Real.sin ((lon - g.sublon) * π / 180))]

theorem neg_div_abs_le_one {a b : ℝ} (hb : 0 < b) (hab : |a| ≤ b) :
    -1 ≤ -a / b ∧ -a / b ≤ 1 := by
  obtain ⟨h1, h2⟩ := abs_le.mp hab
  constructor
  · rw [le_div_iff₀ hb]
    linarith
  · rw [div_le_iff₀ hb]
    linarith

/-- Evaluation of `mapToProjected` at a real input: it returns the real view
angles computed from the real local variables. -/
theorem Geos.mapToProjected_real (k : Const) (hk : k.Consistent) (g : Geos)
    (hg : k.EARTH_RADIUS < g.orbitRadius) (lat lon : ℝ) :
    ∃ c rl r1 r2 r3 rn : ℝ,
      g.mapToProjected k ⟨Dbl.fin lat, Dbl.fin lon⟩ =
        Outcome.returned
          { x := Dbl.fin (Real.arctan (-r2 / r1) * 180 / π),
            y := Dbl.fin (Real.arcsin (-r3 / rn) * 180 / π) } ∧
      c = Real.arctan (k.EARTH_1E2 * Real.tan (lat * π / 180)) ∧
      rl = k.EARTH_RPOL / Real.sqrt (1 - k.EARTH_E2 * Real.cos c ^ 2) ∧
      r1 = g.orbitRadius - rl * Real.cos c * Real.cos ((lon - g.sublon) * π / 180) ∧
      r2 = -rl * Real.cos c * Real.sin ((lon - g.sublon) * π / 180) ∧
      r3 = rl * Real.sin c ∧
      rn = Real.sqrt (r1 * r1 + r2 * r2 + r3 * r3) ∧
      0 < r1 ∧ 0 < rn := by
  obtain ⟨c, rl, r1, r2, r3, rn, hv, hc, hrl, h1, h2, h3, hn, -, -, hr1, hrn, habs⟩ :=
    g.mapToProjectedLocals_real k hk hg lat lon
  refine ⟨c, rl, r1, r2, r3, rn, ?_, hc, hrl, h1, h2, h3, hn, hr1, hrn⟩
  obtain ⟨hlo, hhi⟩ := neg_div_abs_le_one hrn habs
  simp only [Geos.mapToProjected, hv, Dbl.neg_fin, Dbl.fin_div_fin _ hr1.ne',
    Dbl.fin_div_fin _ hrn.ne', Dbl.atan_fin, Dbl.asin_fin hlo hhi, Dbl.fin_mul_fin,
    Dbl.fin_div_pi]

theorem cgms_consistent : cgms.Consistent where
  radius_pos := by norm_num [cgms]
  rpol_pos := by norm_num [cgms]
  e2_pos := by norm_num [cgms]
  e2_lt_one := by norm_num [cgms]
  rpol_sq := by norm_num [cgms]
  one_e2 := by norm_num [cgms]
  inv_e2 := by norm_num [cgms]

/-- C9: for consistent geodetic constants and an orbit radius above the
equatorial radius, at every latitude and longitude the local variables of
`mapToProjected` are real numbers with `R_pol ≤ rl ≤ R_eq`,
`r1 = orbitRadius - rl cos(c_lat) cos(lon) > 0` and `rn > 0`; so the divisions
`-r2 / r1` and `-r3 / rn` have non-zero divisors, and `|r3 / rn| ≤ 1` keeps
`asin` inside its domain. -/
theorem Geos.mapToProjected_divisions_defined (k : Const) (hk : k.Consistent) (g : Geos)
    (hg : k.EARTH_RADIUS < g.orbitRadius) (lat lon : ℝ) :
    ∃ c rl r1 r2 r3 rn : ℝ,
      (g.mapToProjectedLocals k ⟨Dbl.fin lat, Dbl.fin lon⟩).c_lat = Dbl.fin c ∧
      (g.mapToProjectedLocals k ⟨Dbl.fin lat, Dbl.fin lon⟩).rl = Dbl.fin rl ∧
      (g.mapToProjectedLocals k ⟨Dbl.fin lat, Dbl.fin lon⟩).r1 = Dbl.fin r1 ∧
      (g.mapToProjectedLocals k ⟨Dbl.fin lat, Dbl.fin lon⟩).r2 = Dbl.fin r2 ∧
      (g.mapToProjectedLocals k ⟨Dbl.fin lat, Dbl.fin lon⟩).r3 = Dbl.fin r3 ∧
      (g.mapToProjectedLocals k ⟨Dbl.fin lat, Dbl.fin lon⟩).rn = Dbl.fin rn ∧
      k.EARTH_RPOL ≤ rl ∧ rl ≤ k.EARTH_RADIUS ∧
      r1 = g.orbitRadius - rl * Real.cos c * Real.cos ((lon - g.sublon) * π / 180) ∧
      0 < r1 ∧ 0 < rn ∧
      Dbl.fin (-r2) / Dbl.fin r1 = Dbl.fin (-r2 / r1) ∧
      Dbl.fin (-r3) / Dbl.fin rn = Dbl.fin (-r3 / rn) ∧
      |r3 / rn| ≤ 1 ∧
      Dbl.asin (Dbl.fin (-r3) / Dbl.fin rn) = Dbl.fin (Real.arcsin (-r3 / rn)) := by
  obtain ⟨c, rl, r1, r2, r3, rn, hv, -, -, h1, -, -, -, hlo, hhi, hr1, hrn, habs⟩ :=
    g.mapToProjectedLocals_real k hk hg lat lon
  obtain ⟨ha, hb⟩ := neg_div_abs_le_one hrn habs
  refine ⟨c, rl, r1, r2, r3, rn, by rw [hv], by rw [hv], by rw [hv], by rw [hv], by rw [hv],
    by rw [hv], hlo, hhi, h1, hr1, hrn, Dbl.fin_div_fin _ hr1.ne', Dbl.fin_div_fin _ hrn.ne',
    ?_, ?_⟩
  · rw [abs_div, abs_of_pos hrn, div_le_one hrn]
    exact habs
  · rw [Dbl.fin_div_fin _ hrn.ne', Dbl.asin_fin ha hb]

/-- The property C9 at the sample constants, for the satellite at longitude 0
on the nominal orbit and the point of latitude 45 and longitude 10. -/
theorem Geos.mapToProjected_divisions_defined_witness :
    cgms.Consistent ∧ cgms.EARTH_RADIUS < (Geos.mk 0 42164).orbitRadius ∧
    ∃ c rl r1 r2 r3 rn : ℝ,
      ((Geos.mk 0 42164).mapToProjectedLocals cgms ⟨Dbl.fin 45, Dbl.fin 10⟩).c_lat = Dbl.fin c ∧
      ((Geos.mk 0 42164).mapToProjectedLocals cgms ⟨Dbl.fin 45, Dbl.fin 10⟩).rl = Dbl.fin rl ∧
      ((Geos.mk 0 42164).mapToProjectedLocals cgms ⟨Dbl.fin 45, Dbl.fin 10⟩).r1 = Dbl.fin r1 ∧
      ((Geos.mk 0 42164).mapToProjectedLocals cgms ⟨Dbl.fin 45, Dbl.fin 10⟩).r2 = Dbl.fin r2 ∧
      ((Geos.mk 0 42164).mapToProjectedLocals cgms ⟨Dbl.fin 45, Dbl.fin 10⟩).r3 = Dbl.fin r3 ∧
      ((Geos.mk 0 42164).mapToProjectedLocals cgms ⟨Dbl.fin 45, Dbl.fin 10⟩).rn = Dbl.fin rn ∧
      cgms.EARTH_RPOL ≤ rl ∧ rl ≤ cgms.EARTH_RADIUS ∧
      r1 = (Geos.mk 0 42164).orbitRadius -
        rl * Real.cos c * Real.cos (((10 : ℝ) - (Geos.mk 0 42164).sublon) * π / 180) ∧
      0 < r1 ∧ 0 < rn ∧
      Dbl.fin (-r2) / Dbl.fin r1 = Dbl.fin (-r2 / r1) ∧
      Dbl.fin (-r3) / Dbl.fin rn = Dbl.fin (-r3 / rn) ∧
      |r3 / rn| ≤ 1 ∧
      Dbl.asin (Dbl.fin (-r3) / Dbl.fin rn) = Dbl.fin (Real.arcsin (-r3 / rn)) :=
  ⟨cgms_consistent, by norm_num [cgms],
    Geos.mapToProjected_divisions_defined cgms cgms_consistent (Geos.mk 0 42164)
      (by norm_num [cgms]) 45 10⟩

/-! ### No out-of-view signal in the forward transform -/

/-- The point of the equator opposite to the satellite is mapped to the view
angles `(0, 0)` of the sub-satellite point. -/
theorem Geos.mapToProjected_far_side (k : Const) (hk : k.Consistent) (g : Geos)
    (hg : k.EARTH_RADIUS < g.orbitRadius) :
    g.mapToProjected k ⟨Dbl.fin 0, Dbl.fin (g.sublon + 180)⟩ =
      Outcome.returned ⟨Dbl.fin 0, Dbl.fin 0⟩ := by
  obtain ⟨c, rl, r1, r2, r3, rn, hv, hc, -, -, h2, h3, -, -, -⟩ :=
    g.mapToProjected_real k hk hg 0 (g.sublon + 180)
  have hc0 : c = 0 := by
    rw [hc]
    simp
  have hl : (g.sublon + 180 - g.sublon) * π / 180 = π := by ring
  have hr2 : r2 = 0 := by
    rw [h2, hl, Real.sin_pi, mul_zero]
  have hr3 : r3 = 0 := by
    rw [h3, hc0, Real.sin_zero, mul_zero]
  rw [hv, hr2, hr3]
  simp

/-- C6, as the code behaves: `mapToProjected` has no out-of-view signal. For
consistent constants and an orbit radius above the equatorial radius it
returns a point with real view angles at every latitude and longitude; the
point of latitude 0 and longitude `sublon + 180`, on the far side of the Earth,
is returned as the projected point `(0, 0)`. -/
theorem Geos.mapToProjected_always_returns (k : Const) (hk : k.Consistent) (g : Geos)
    (hg : k.EARTH_RADIUS < g.orbitRadius) (lat lon : ℝ) :
    (∃ x y : ℝ, g.mapToProjected k ⟨Dbl.fin lat, Dbl.fin lon⟩ =
        Outcome.returned ⟨Dbl.fin x, Dbl.fin y⟩) ∧
      g.mapToProjected k ⟨Dbl.fin 0, Dbl.fin (g.sublon + 180)⟩ =
        Outcome.returned ⟨Dbl.fin 0, Dbl.fin 0⟩ := by
  obtain ⟨c, rl, r1, r2, r3, rn, hv, -⟩ := g.mapToProjected_real k hk hg lat lon
  exact ⟨⟨_, _, hv⟩, g.mapToProjected_far_side k hk hg⟩

/-- The amended C6 at the sample constants, for the satellite at longitude 0
on the nominal orbit and the point of latitude 45 and longitude 10. -/
theorem Geos.mapToProjected_always_returns_witness :
    cgms.Consistent ∧ cgms.EARTH_RADIUS < (Geos.mk 0 42164).orbitRadius ∧
      (∃ x y : ℝ, (Geos.mk 0 42164).mapToProjected cgms ⟨Dbl.fin 45, Dbl.fin 10⟩ =
        Outcome.returned ⟨Dbl.fin x, Dbl.fin y⟩) ∧
      (Geos.mk 0 42164).mapToProjected cgms
          ⟨Dbl.fin 0, Dbl.fin ((Geos.mk 0 42164).sublon + 180)⟩ =
        Outcome.returned ⟨Dbl.fin 0, Dbl.fin 0⟩ :=
  ⟨cgms_consistent, by norm_num [cgms],
    Geos.mapToProjected_always_returns cgms cgms_consistent (Geos.mk 0 42164)
      (by norm_num [cgms]) 45 10⟩

/-- C6 as stated fails: with the sample constants and the satellite at
longitude 0 and orbit radius 42164, the far-side point of latitude 0 and
longitude 180 is not signalled; it is returned as the projected point `(0, 0)`. -/
theorem Geos.mapToProjected_far_side_not_signalled :
    (Geos.mk 0 42164).mapToProjected cgms ⟨Dbl.fin 0, Dbl.fin 180⟩ =
        Outcome.returned ⟨Dbl.fin 0, Dbl.fin 0⟩ ∧
      ¬ ∃ what, (Geos.mk 0 42164).mapToProjected cgms ⟨Dbl.fin 0, Dbl.fin 180⟩ =
        Outcome.thrown what := by
  have h := Geos.mapToProjected_far_side cgms cgms_consistent (Geos.mk 0 42164)
    (by norm_num [cgms])
  have e : (Geos.mk 0 42164).sublon + 180 = (180 : ℝ) := by norm_num
  rw [e] at h
  refine ⟨h, ?_⟩
  rintro ⟨what, hw⟩
  rw [h] at hw
  cases hw

/-! ### The inverse transform -/

/-- Evaluation of the radicand of `sd` at real view angles (in radians). -/
theorem Geos.sdRadicand_fin (k : Const) (g : Geos) (x y : ℝ) :
    g.sdRadicand k (Dbl.fin x) (Dbl.fin y) =
      Dbl.fin ((g.orbitRadius * Real.cos x * Real.cos y) ^ 2 -
        (Real.cos y ^ 2 + k.EARTH_IE2 * Real.sin y ^ 2) * Geos.sdLiteral) := by
  simp [Geos.sdRadicand]

/-- When the radicand of `sd` is negative, `sd` is not a real number, nor is
any value computed from it: both coordinates of the returned point are `nan`. -/
theorem Geos.projectedToMap_nan_of_radicand_neg (k : Const) (g : Geos) (x y : ℝ)
    (hneg : (g.orbitRadius * Real.cos (x * π / 180) * Real.cos (y * π / 180)) ^ 2 -
        (Real.cos (y * π / 180) ^ 2 + k.EARTH_IE2 * Real.sin (y * π / 180) ^ 2) *
          Geos.sdLiteral < 0) :
    g.projectedToMap k ⟨Dbl.fin x, Dbl.fin y⟩ =
      Outcome.returned { lat := Dbl.nan, lon := Dbl.nan } := by
  simp only [Geos.projectedToMap, Geos.projectedToMapLocals, Dbl.fin_mul_fin, Dbl.fin_div_180,
    Geos.sdRadicand_fin, Dbl.sqrt_fin_neg hneg]
  simp

/-- Evaluation of `projectedToMap` at real view angles whose radicand is not
negative and where no divisor vanishes. -/
theorem Geos.projectedToMap_real (k : Const) (g : Geos) (x y d A sn s1 s2 s3 : ℝ)
    (hd : d = (g.orbitRadius * Real.cos (x * π / 180) * Real.cos (y * π / 180)) ^ 2 -
        (Real.cos (y * π / 180) ^ 2 + k.EARTH_IE2 * Real.sin (y * π / 180) ^ 2) *
          Geos.sdLiteral)
    (hA : A = Real.cos (y * π / 180) ^ 2 + k.EARTH_IE2 * Real.sin (y * π / 180) ^ 2)
    (hsn : sn = (g.orbitRadius * Real.cos (x * π / 180) * Real.cos (y * π / 180) -
        Real.sqrt d) / A)
    (hs1 : s1 = g.orbitRadius - sn * Real.cos (x * π / 180) * Real.cos (y * π / 180))
    (hs2 : s2 = sn * Real.sin (x * π / 180) * Real.cos (y * π / 180))
    (hs3 : s3 = -sn * Real.sin (y * π / 180))
    (hd0 : 0 ≤ d) (hA0 : A ≠ 0) (h10 : s1 ≠ 0) :
    g.projectedToMap k ⟨Dbl.fin x, Dbl.fin y⟩ =
      Outcome.returned
        { lon := Dbl.fin (Real.arctan (s2 / s1) * 180 / π + g.sublon),
          lat := Dbl.fin (Real.arctan (k.EARTH_IE2 *
            (s3 / Real.sqrt (s1 * s1 + s2 * s2))) * 180 / π) } := by
  have hxy : 0 < s1 * s1 + s2 * s2 :=
    add_pos_of_pos_of_nonneg (mul_self_pos.mpr h10) (mul_self_nonneg _)
  have hsxy : Real.sqrt (s1 * s1 + s2 * s2) ≠ 0 := (Real.sqrt_pos.mpr hxy).ne'
  subst hs3 hs2 hs1 hsn hA hd
  simp only [Geos.projectedToMap, Geos.projectedToMapLocals, Dbl.fin_mul_fin, Dbl.fin_div_180,
    Geos.sdRadicand_fin, Dbl.sqrt_fin hd0, Dbl.cos_fin, Dbl.sin_fin, Dbl.pow_fin,
    Dbl.fin_sub_fin, Dbl.fin_add_fin, Dbl.fin_div_fin _ hA0, Dbl.neg_fin]
  rw [Dbl.sqrt_fin hxy.le, Dbl.fin_div_fin _ h10, Dbl.fin_div_fin _ hsxy]
  simp only [Dbl.atan_fin, Dbl.fin_mul_fin, Dbl.fin_div_pi, Dbl.fin_add_fin]

/-- A view direction pointing away from the Earth (`x = 180`, `y = 0`): when
the square of the orbit radius exceeds the literal, the radicand is positive
and the returned point is the sub-satellite point, with real coordinates. -/
theorem Geos.projectedToMap_behind (k : Const) (g : Geos)
    (hg : Geos.sdLiteral < g.orbitRadius ^ 2) :
    g.projectedToMap k ⟨Dbl.fin 180, Dbl.fin 0⟩ =
      Outcome.returned { lat := Dbl.fin 0, lon := Dbl.fin g.sublon } := by
  have hx : (180 : ℝ) * π / 180 = π := by ring
  have hy : (0 : ℝ) * π / 180 = 0 := by ring
  have hd0 : 0 < g.orbitRadius ^ 2 - Geos.sdLiteral := by linarith
  have hs := Real.sqrt_pos.mpr hd0
  have h := g.projectedToMap_real k 180 0 (g.orbitRadius ^ 2 - Geos.sdLiteral) 1
    (-g.orbitRadius - Real.sqrt (g.orbitRadius ^ 2 - Geos.sdLiteral))
    (-Real.sqrt (g.orbitRadius ^ 2 - Geos.sdLiteral)) 0 0
    (by rw [hx, hy]; simp) (by rw [hy]; simp) (by rw [hx, hy]; simp) (by rw [hx, hy]; simp)
    (by rw [hx]; simp) (by rw [hy]; simp) hd0.le one_ne_zero (neg_ne_zero.mpr hs.ne')
  rw [h]
  simp

/-- C2, as the code behaves: `projectedToMap` has no failure signal. For every
projected point whose radicand under `sd` is negative it returns a point whose
latitude and longitude are both `nan`; and the projected point `(180, 0)`,
with `|x| ≥ 90`, is returned as the ordinary point of latitude 0 and longitude
`sublon` whenever the square of the orbit radius exceeds the literal. -/
theorem Geos.projectedToMap_no_failure_signal (k : Const) (g : Geos) (x y : ℝ) :
    ((g.orbitRadius * Real.cos (x * π / 180) * Real.cos (y * π / 180)) ^ 2 -
        (Real.cos (y * π / 180) ^ 2 + k.EARTH_IE2 * Real.sin (y * π / 180) ^ 2) *
          Geos.sdLiteral < 0 →
      g.projectedToMap k ⟨Dbl.fin x, Dbl.fin y⟩ =
        Outcome.returned { lat := Dbl.nan, lon := Dbl.nan }) ∧
    (Geos.sdLiteral < g.orbitRadius ^ 2 →
      g.projectedToMap k ⟨Dbl.fin 180, Dbl.fin 0⟩ =
        Outcome.returned { lat := Dbl.fin 0, lon := Dbl.fin g.sublon }) :=
  ⟨g.projectedToMap_nan_of_radicand_neg k x y, g.projectedToMap_behind k⟩

/-- The amended C2 at the sample constants, for the satellite at longitude 0
on the nominal orbit: the projected point `(90, 0)` has a negative radicand. -/
theorem Geos.projectedToMap_no_failure_signal_witness :
    ((Geos.mk 0 42164).orbitRadius * Real.cos ((90 : ℝ) * π / 180) *
          Real.cos ((0 : ℝ) * π / 180)) ^ 2 -
        (Real.cos ((0 : ℝ) * π / 180) ^ 2 +
          cgms.EARTH_IE2 * Real.sin ((0 : ℝ) * π / 180) ^ 2) * Geos.sdLiteral < 0 ∧
    Geos.sdLiteral < (Geos.mk 0 42164).orbitRadius ^ 2 ∧
    (Geos.mk 0 42164).projectedToMap cgms ⟨Dbl.fin 90, Dbl.fin 0⟩ =
      Outcome.returned { lat := Dbl.nan, lon := Dbl.nan } ∧
    (Geos.mk 0 42164).projectedToMap cgms ⟨Dbl.fin 180, Dbl.fin 0⟩ =
      Outcome.returned { lat := Dbl.fin 0, lon := Dbl.fin (Geos.mk 0 42164).sublon } := by
  have hx : (90 : ℝ) * π / 180 = π / 2 := by ring
  have h1 : ((Geos.mk 0 42164).orbitRadius * Real.cos ((90 : ℝ) * π / 180) *
          Real.cos ((0 : ℝ) * π / 180)) ^ 2 -
        (Real.cos ((0 : ℝ) * π / 180) ^ 2 +
          cgms.EARTH_IE2 * Real.sin ((0 : ℝ) * π / 180) ^ 2) * Geos.sdLiteral < 0 := by
    rw [hx]
    norm_num [Geos.sdLiteral]
  have h2 : Geos.sdLiteral < (Geos.mk 0 42164).orbitRadius ^ 2 := by
    norm_num [Geos.sdLiteral]
  exact ⟨h1, h2,
    (Geos.projectedToMap_no_failure_signal cgms (Geos.mk 0 42164) 90 0).1 h1,
    (Geos.projectedToMap_no_failure_signal cgms (Geos.mk 0 42164) 90 0).2 h2⟩

/-- C2 as stated fails: for the satellite at longitude 0 with orbit radius
42164, the projected point `(180, 0)` has `|x| ≥ 90`, yet no failure is
signalled: the ordinary-looking point of latitude 0 and longitude 0 is
returned. -/
theorem Geos.projectedToMap_behind_not_signalled :
    (Geos.mk 0 42164).projectedToMap cgms ⟨Dbl.fin 180, Dbl.fin 0⟩ =
        Outcome.returned { lat := Dbl.fin 0, lon := Dbl.fin 0 } ∧
      ¬ ∃ what, (Geos.mk 0 42164).projectedToMap cgms ⟨Dbl.fin 180, Dbl.fin 0⟩ =
        Outcome.thrown what := by
  have h := Geos.projectedToMap_behind cgms (Geos.mk 0 42164)
    (by norm_num [Geos.sdLiteral])
  refine ⟨h, ?_⟩
  rintro ⟨what, hw⟩
  rw [h] at hw
  cases hw

/-! ### The literal in the radicand, and the round trip -/

/-- The sub-satellite point is mapped to the view angles `(0, 0)`. -/
theorem Geos.mapToProjected_subsatellite (k : Const) (hk : k.Consistent) (g : Geos)
    (hg : k.EARTH_RADIUS < g.orbitRadius) :
    g.mapToProjected k ⟨Dbl.fin 0, Dbl.fin g.sublon⟩ =
      Outcome.returned ⟨Dbl.fin 0, Dbl.fin 0⟩ := by
  obtain ⟨c, rl, r1, r2, r3, rn, hv, hc, -, -, h2, h3, -, -, -⟩ :=
    g.mapToProjected_real k hk hg 0 g.sublon
  have hc0 : c = 0 := by
    rw [hc]
    simp
  have hr2 : r2 = 0 := by
    rw [h2]
    simp
  have hr3 : r3 = 0 := by
    rw [h3, hc0, Real.sin_zero, mul_zero]
  rw [hv, hr2, hr3]
  simp

/-- C8 fails on the code: the subtracted constant is the literal 1737121856
whatever the orbit radius of the instance is. For the instance with orbit
radius 40000 it is `orbitRadius² - R²` for no radius `R` at all, and the
radicand of `sd` at the centre of the view, which should be `R_eq²`, is
negative. -/
theorem Geos.sdLiteral_ignores_orbitRadius :
    (∀ g : Geos, ∀ x y : ℝ, g.sdRadicand cgms (Dbl.fin x) (Dbl.fin y) =
      Dbl.fin ((g.orbitRadius * Real.cos x * Real.cos y) ^ 2 -
        (Real.cos y ^ 2 + cgms.EARTH_IE2 * Real.sin y ^ 2) * 1737121856)) ∧
    (∀ R : ℝ, Geos.sdLiteral ≠ (Geos.mk 0 40000).orbitRadius ^ 2 - R ^ 2) ∧
    (Geos.mk 0 40000).sdRadicand cgms (Dbl.fin 0) (Dbl.fin 0) = Dbl.fin (-137121856) := by
  refine ⟨fun g x y => by rw [Geos.sdRadicand_fin, Geos.sdLiteral], fun R hR => ?_, ?_⟩
  · have h := sq_nonneg R
    simp only [Geos.sdLiteral] at hR
    norm_num at hR
    linarith
  · rw [Geos.sdRadicand_fin]
    norm_num [Geos.sdLiteral]

/-- C1 fails on the code: for the instance with sub-satellite longitude 0 and
orbit radius 40000 (above the equatorial radius), the sub-satellite point
`(0, 0)`, the centre of the visible disk, is projected to `(0, 0)`, and
`projectedToMap` then takes the square root of a negative number: the round
trip returns a point with both coordinates `nan`, not `(0, 0)`. -/
theorem Geos.roundTrip_fails_off_nominal_orbit :
    (Geos.mk 0 40000).mapToProjected cgms ⟨Dbl.fin 0, Dbl.fin 0⟩ =
        Outcome.returned ⟨Dbl.fin 0, Dbl.fin 0⟩ ∧
      (Geos.mk 0 40000).roundTrip cgms ⟨Dbl.fin 0, Dbl.fin 0⟩ =
        Outcome.returned { lat := Dbl.nan, lon := Dbl.nan } ∧
      (Geos.mk 0 40000).roundTrip cgms ⟨Dbl.fin 0, Dbl.fin 0⟩ ≠
        Outcome.returned { lat := Dbl.fin 0, lon := Dbl.fin 0 } := by
  have h1 : (Geos.mk 0 40000).mapToProjected cgms ⟨Dbl.fin 0, Dbl.fin 0⟩ =
      Outcome.returned ⟨Dbl.fin 0, Dbl.fin 0⟩ :=
    Geos.mapToProjected_subsatellite cgms cgms_consistent (Geos.mk 0 40000)
      (by norm_num [cgms])
  have h2 : (Geos.mk 0 40000).roundTrip cgms ⟨Dbl.fin 0, Dbl.fin 0⟩ =
      Outcome.returned { lat := Dbl.nan, lon := Dbl.nan } := by
    rw [Geos.roundTrip, h1]
    apply Geos.projectedToMap_nan_of_radicand_neg
    norm_num [Geos.sdLiteral]
  refine ⟨h1, h2, ?_⟩
  rw [h2]
  intro h
  injection h with h
  injection h with h3 h4
  cases h3

/-! ### The round trip when the literal matches the orbit -/

theorem sqrt_one_add_div_sq {t r : ℝ} (hr : 0 < r) :
    Real.sqrt (1 + (t / r) ^ 2) = Real.sqrt (r * r + t * t) / r := by
  have h : 1 + (t / r) ^ 2 = (r * r + t * t) / (r * r) := by
    field_simp
    ring
  rw [h, Real.sqrt_div' _ (mul_self_nonneg r), Real.sqrt_mul_self hr.le]

theorem cos_arctan_div {t r : ℝ} (hr : 0 < r) :
    Real.cos (Real.arctan (t / r)) = r / Real.sqrt (r * r + t * t) := by
  rw [Real.cos_arctan, sqrt_one_add_div_sq hr, one_div_div]

theorem sin_arctan_div {t r : ℝ} (hr : 0 < r) :
    Real.sin (Real.arctan (t / r)) = t / Real.sqrt (r * r + t * t) := by
  rw [Real.sin_arctan, sqrt_one_add_div_sq hr]
  field_simp

theorem cos_arcsin_div {s z n : ℝ} (hn : 0 < n) (hnn : n * n = s + z * z) :
    Real.cos (Real.arcsin (z / n)) = Real.sqrt s / n := by
  have h : 1 - (z / n) ^ 2 = s / (n * n) := by
    field_simp
    nlinarith
  rw [Real.cos_arcsin, h, Real.sqrt_div' _ (mul_self_nonneg n), Real.sqrt_mul_self hn.le]

/-- The products of sines and cosines of the view angles are the direction
cosines of the satellite-to-surface vector. -/
theorem view_angle_cosines {r1 r2 r3 rn : ℝ} (hr1 : 0 < r1)
    (hn : rn = Real.sqrt (r1 * r1 + r2 * r2 + r3 * r3)) :
    Real.cos (Real.arctan (-r2 / r1)) * Real.cos (Real.arcsin (-r3 / rn)) = r1 / rn ∧
      Real.sin (Real.arctan (-r2 / r1)) * Real.cos (Real.arcsin (-r3 / rn)) = -r2 / rn ∧
      Real.sin (Real.arcsin (-r3 / rn)) = -r3 / rn ∧
      Real.cos (Real.arcsin (-r3 / rn)) ^ 2 = (r1 * r1 + r2 * r2) / rn ^ 2 := by
  have hs0 : 0 < r1 * r1 + r2 * r2 :=
    add_pos_of_pos_of_nonneg (mul_pos hr1 hr1) (mul_self_nonneg _)
  have hsum : 0 < r1 * r1 + r2 * r2 + r3 * r3 :=
    add_pos_of_pos_of_nonneg hs0 (mul_self_nonneg _)
  have hrn : 0 < rn := by
    rw [hn]
    exact Real.sqrt_pos.mpr hsum
  have hnn : rn * rn = r1 * r1 + r2 * r2 + -r3 * -r3 := by
    rw [hn, Real.mul_self_sqrt hsum.le]
    ring
  have hρ : 0 < Real.sqrt (r1 * r1 + r2 * r2) := Real.sqrt_pos.mpr hs0
  have hc1 := cos_arctan_div (t := -r2) hr1
  have hs1 := sin_arctan_div (t := -r2) hr1
  have e : r1 * r1 + -r2 * -r2 = r1 * r1 + r2 * r2 := by ring
  rw [e] at hc1 hs1
  have hc2 := cos_arcsin_div (s := r1 * r1 + r2 * r2) (z := -r3) hrn hnn
  have habs : |r3| ≤ rn := by
    rw [hn]
    apply Real.abs_le_sqrt
    nlinarith [mul_self_nonneg r1, mul_self_nonneg r2]
  obtain ⟨hlo, hhi⟩ := neg_div_abs_le_one hrn habs
  refine ⟨?_, ?_, Real.sin_arcsin hlo hhi, ?_⟩
  · rw [hc1, hc2]
    field_simp
  · rw [hs1, hc2]
    field_simp
    ring
  · rw [hc2, div_pow, Real.sq_sqrt hs0.le]

/-- The nearer root of the line-of-sight quadratic is the distance `rn` from
the satellite to a strictly visible surface point, provided the constant of
the radicand is `h² - a²`. -/
theorem range_root (h a q K P1 P2 P3 rn u cy2 sy2 A d : ℝ) (hq : 0 < q)
    (hell : P1 ^ 2 + P2 ^ 2 + P3 ^ 2 / q = a ^ 2) (hK : K = h ^ 2 - a ^ 2)
    (hvis : a ^ 2 < h * P1) (hrn : 0 < rn)
    (hu : u = (h - P1) / rn) (hcy : cy2 = ((h - P1) ^ 2 + P2 ^ 2) / rn ^ 2)
    (hsy : sy2 = P3 ^ 2 / rn ^ 2) (hA : A = cy2 + 1 / q * sy2)
    (hd : d = (h * u) ^ 2 - A * K) :
    0 < A ∧ 0 ≤ d ∧ (h * u - Real.sqrt d) / A = rn := by
  have hrn0 : rn ≠ 0 := hrn.ne'
  have hA2 : A * rn ^ 2 = h ^ 2 - 2 * h * P1 + a ^ 2 := by
    rw [hA, hcy, hsy, ← hell]
    field_simp
    ring
  have hur : u * rn = h - P1 := by
    rw [hu]
    field_simp
  have hm : (h * u - A * rn) * rn = h * P1 - a ^ 2 := by
    have : (h * u - A * rn) * rn = h * (u * rn) - A * rn ^ 2 := by ring
    rw [this, hur, hA2]
    ring
  have hmpos : 0 < h * u - A * rn := by
    have h1 : 0 < (h * u - A * rn) * rn := by rw [hm]; linarith
    exact (mul_pos_iff_of_pos_right hrn).mp h1
  have hApos : 0 < A := by
    have h1 : 0 < A * rn ^ 2 := by
      rw [hA2]
      nlinarith [sq_nonneg (h - P1), sq_nonneg P2, sq_nonneg P3, div_nonneg (sq_nonneg P3) hq.le]
    exact (mul_pos_iff_of_pos_right (pow_pos hrn 2)).mp h1
  have hdm : d = (h * u - A * rn) ^ 2 := by
    have h1 : (h * u - A * rn) ^ 2 = (h * u) ^ 2 - A * (2 * h * (u * rn) - A * rn ^ 2) := by
      ring
    rw [h1, hur, hA2, hd, hK]
    ring
  refine ⟨hApos, by rw [hdm]; exact sq_nonneg _, ?_⟩
  rw [hdm, Real.sqrt_sq hmpos.le]
  field_simp

/-- The surface point computed by `mapToProjected` lies on the ellipsoid. -/
theorem Const.Consistent.on_ellipsoid {k : Const} (hk : k.Consistent) (c l rl : ℝ)
    (hrl : rl = k.EARTH_RPOL / Real.sqrt (1 - k.EARTH_E2 * Real.cos c ^ 2)) :
    (rl * Real.cos c * Real.cos l) ^ 2 + (rl * Real.cos c * Real.sin l) ^ 2 +
      (rl * Real.sin c) ^ 2 / (1 - k.EARTH_E2) = k.EARTH_RADIUS ^ 2 := by
  obtain ⟨-, -, hpos⟩ := hk.radicand_bounds c
  have hq : (1 - k.EARTH_E2) ≠ 0 := by
    have := hk.e2_lt_one
    intro h
    linarith
  have hrl2 : rl ^ 2 = k.EARTH_RADIUS ^ 2 * (1 - k.EARTH_E2) /
      (1 - k.EARTH_E2 * Real.cos c ^ 2) := by
    rw [hrl, div_pow, Real.sq_sqrt hpos.le, hk.rpol_sq]
  have hsc : Real.sin c ^ 2 = 1 - Real.cos c ^ 2 := by
    have := Real.sin_sq_add_cos_sq c
    linarith
  have hsl : Real.sin l ^ 2 = 1 - Real.cos l ^ 2 := by
    have := Real.sin_sq_add_cos_sq l
    linarith
  have e : (rl * Real.cos c * Real.cos l) ^ 2 + (rl * Real.cos c * Real.sin l) ^ 2 +
      (rl * Real.sin c) ^ 2 / (1 - k.EARTH_E2) =
      rl ^ 2 * (Real.cos c ^ 2 + (1 - Real.cos c ^ 2) / (1 - k.EARTH_E2)) := by
    rw [mul_pow, mul_pow, mul_pow, mul_pow, mul_pow, hsc, hsl]
    field_simp
    ring
  rw [e, hrl2]
  field_simp
  ring

theorem deg_rad_deg (a : ℝ) : a * 180 / π * π / 180 = a := by
  field_simp

theorem rad_bounds_of_deg {a : ℝ} (h : |a| < 90) :
    -(π / 2) < a * π / 180 ∧ a * π / 180 < π / 2 := by
  obtain ⟨h1, h2⟩ := abs_lt.mp h
  have hp := Real.pi_pos
  constructor <;> nlinarith

/-- The round trip holds in exact arithmetic on the instances for which the
literal in `projectedToMap` is `orbitRadius² - R_eq²`: for consistent constants
and every point strictly inside the visible disk,
`projectedToMap(mapToProjected(p))` returns `p`. -/
theorem Geos.roundTrip_of_literal_eq (k : Const) (hk : k.Consistent) (g : Geos)
    (hg : k.EARTH_RADIUS < g.orbitRadius)
    (hlit : Geos.sdLiteral = g.orbitRadius ^ 2 - k.EARTH_RADIUS ^ 2)
    (lat lon : ℝ) (hvis : g.strictlyVisible k lat lon) :
    g.roundTrip k ⟨Dbl.fin lat, Dbl.fin lon⟩ =
      Outcome.returned ⟨Dbl.fin lat, Dbl.fin lon⟩ := by
  obtain ⟨hlat, hlon, hvis⟩ := hvis
  obtain ⟨c, rl, r1, r2, r3, rn, hv, hc, hrl, h1, h2, h3, hn, hr1, hrn⟩ :=
    g.mapToProjected_real k hk hg lat lon
  rw [← hc, ← hrl] at hvis
  obtain ⟨hφ1, hφ2⟩ := rad_bounds_of_deg hlat
  obtain ⟨hl1, hl2⟩ := rad_bounds_of_deg hlon
  have hq : 0 < 1 - k.EARTH_E2 := by linarith [hk.e2_lt_one]
  have hh : 0 < g.orbitRadius := lt_trans hk.radius_pos hg
  have hrlpos : 0 < rl := by
    rw [hrl]
    exact lt_of_lt_of_le hk.rpol_pos (hk.rl_bounds c).1
  have hcpos : 0 < Real.cos c := by
    rw [hc]
    exact Real.cos_arctan_pos _
  have hlpos : 0 < Real.cos ((lon - g.sublon) * π / 180) :=
    Real.cos_pos_of_mem_Ioo ⟨hl1, hl2⟩
  have hrc : 0 < rl * Real.cos c := mul_pos hrlpos hcpos
  have hP1 : 0 < rl * Real.cos c * Real.cos ((lon - g.sublon) * π / 180) := mul_pos hrc hlpos
  have hell := hk.on_ellipsoid c ((lon - g.sublon) * π / 180) rl hrl
  obtain ⟨hcc, hsc, hsy, hcy2⟩ := view_angle_cosines hr1 hn
  have hroot := range_root g.orbitRadius k.EARTH_RADIUS (1 - k.EARTH_E2)
    Geos.sdLiteral (rl * Real.cos c * Real.cos ((lon - g.sublon) * π / 180))
    (rl * Real.cos c * Real.sin ((lon - g.sublon) * π / 180)) (rl * Real.sin c)
    rn
    (Real.cos (Real.arctan (-r2 / r1)) * Real.cos (Real.arcsin (-r3 / rn)))
    (Real.cos (Real.arcsin (-r3 / rn)) ^ 2)
    (Real.sin (Real.arcsin (-r3 / rn)) ^ 2)
    (Real.cos (Real.arcsin (-r3 / rn)) ^ 2 +
      k.EARTH_IE2 * Real.sin (Real.arcsin (-r3 / rn)) ^ 2)
    ((g.orbitRadius *
        (Real.cos (Real.arctan (-r2 / r1)) * Real.cos (Real.arcsin (-r3 / rn)))) ^ 2 -
      (Real.cos (Real.arcsin (-r3 / rn)) ^ 2 +
        k.EARTH_IE2 * Real.sin (Real.arcsin (-r3 / rn)) ^ 2) * Geos.sdLiteral)
    hq hell hlit hvis hrn (by rw [hcc, h1]) (by rw [hcy2, h1, h2]; ring)
    (by rw [hsy, h3]; ring) (by rw [hk.inv_e2]) rfl
  obtain ⟨hApos, hd0, hsn⟩ := hroot
  have e3 : g.orbitRadius * Real.cos (Real.arctan (-r2 / r1)) *
      Real.cos (Real.arcsin (-r3 / rn)) = g.orbitRadius *
      (Real.cos (Real.arctan (-r2 / r1)) * Real.cos (Real.arcsin (-r3 / rn))) :=
    mul_assoc _ _ _
  have hrn0 : rn ≠ 0 := hrn.ne'
  rw [Geos.roundTrip, hv]
  simp only []
  rw [g.projectedToMap_real k (Real.arctan (-r2 / r1) * 180 / π)
    (Real.arcsin (-r3 / rn) * 180 / π) _ _ rn
    (rl * Real.cos c * Real.cos ((lon - g.sublon) * π / 180))
    (rl * Real.cos c * Real.sin ((lon - g.sublon) * π / 180)) (rl * Real.sin c)
    rfl rfl
    (by rw [deg_rad_deg, deg_rad_deg, e3]; exact hsn.symm)
    (by
      rw [deg_rad_deg, deg_rad_deg, mul_assoc rn, hcc, mul_div_cancel₀ _ hrn0, h1]
      ring)
    (by
      rw [deg_rad_deg, deg_rad_deg, mul_assoc rn, hsc, mul_div_cancel₀ _ hrn0, h2]
      ring)
    (by
      rw [deg_rad_deg, hsy, neg_mul, mul_div_cancel₀ _ hrn0, h3]
      ring)
    (by rw [deg_rad_deg, deg_rad_deg, e3]; exact hd0)
    (by rw [deg_rad_deg]; exact hApos.ne')
    hP1.ne']
  have hlon' : Real.arctan (rl * Real.cos c * Real.sin ((lon - g.sublon) * π / 180) /
      (rl * Real.cos c * Real.cos ((lon - g.sublon) * π / 180))) =
      (lon - g.sublon) * π / 180 := by
    rw [mul_div_mul_left _ _ hrc.ne', ← Real.tan_eq_sin_div_cos, Real.arctan_tan hl1 hl2]
  have hsxy : Real.sqrt (rl * Real.cos c * Real.cos ((lon - g.sublon) * π / 180) *
      (rl * Real.cos c * Real.cos ((lon - g.sublon) * π / 180)) +
      rl * Real.cos c * Real.sin ((lon - g.sublon) * π / 180) *
      (rl * Real.cos c * Real.sin ((lon - g.sublon) * π / 180))) = rl * Real.cos c := by
    have e : rl * Real.cos c * Real.cos ((lon - g.sublon) * π / 180) *
      (rl * Real.cos c * Real.cos ((lon - g.sublon) * π / 180)) +
      rl * Real.cos c * Real.sin ((lon - g.sublon) * π / 180) *
      (rl * Real.cos c * Real.sin ((lon - g.sublon) * π / 180)) =
      (rl * Real.cos c) ^ 2 := by
      have := Real.sin_sq_add_cos_sq ((lon - g.sublon) * π / 180)
      linear_combination (rl * Real.cos c) ^ 2 * this
    rw [e, Real.sqrt_sq hrc.le]
  have hlat' : Real.arctan (k.EARTH_IE2 * (rl * Real.sin c / (rl * Real.cos c))) =
      lat * π / 180 := by
    rw [mul_div_mul_left _ _ hrlpos.ne', ← Real.tan_eq_sin_div_cos, hc, Real.tan_arctan,
      hk.inv_e2, hk.one_e2, ← mul_assoc, one_div, inv_mul_cancel₀ hq.ne', one_mul,
      Real.arctan_tan hφ1 hφ2]
  rw [hlon', hsxy, hlat']
  have hp := Real.pi_ne_zero
  congr 3
  · field_simp
  · field_simp

theorem literalConst_consistent : literalConst.Consistent where
  radius_pos := Real.sqrt_pos.mpr (by norm_num)
  rpol_pos := mul_pos (Real.sqrt_pos.mpr (by norm_num)) (by norm_num)
  e2_pos := by norm_num [literalConst]
  e2_lt_one := by norm_num [literalConst]
  rpol_sq := by
    simp only [literalConst]
    ring
  one_e2 := by
    simp only [literalConst]
    ring
  inv_e2 := by
    simp only [literalConst]
    congr 1
    ring

/-- The hypotheses of the round-trip property can be met: with the constants
`literalConst` and the satellite at longitude 0 on the nominal orbit, the point
of latitude 0 and longitude 45 is strictly inside the visible disk and is
reproduced by the round trip. -/
theorem Geos.roundTrip_of_literal_eq_example :
    (Geos.mk 0 42164).strictlyVisible literalConst 0 45 ∧
      (Geos.mk 0 42164).roundTrip literalConst ⟨Dbl.fin 0, Dbl.fin 45⟩ =
        Outcome.returned ⟨Dbl.fin 0, Dbl.fin 45⟩ := by
  have hs2 : Real.sqrt 40681040 ^ 2 = 40681040 := Real.sq_sqrt (by norm_num)
  have hs0 : 0 < Real.sqrt 40681040 := Real.sqrt_pos.mpr (by norm_num)
  have hslt : Real.sqrt 40681040 < 6379 := by
    rw [Real.sqrt_lt' (by norm_num)]
    norm_num
  have ht2 : Real.sqrt 2 ^ 2 = 2 := Real.sq_sqrt (by norm_num)
  have ht0 : 0 < Real.sqrt 2 := Real.sqrt_pos.mpr (by norm_num)
  have ht1 : 1 < Real.sqrt 2 := by
    rw [Real.lt_sqrt (by norm_num)]
    norm_num
  have hvis : (Geos.mk 0 42164).strictlyVisible literalConst 0 45 := by
    refine ⟨by norm_num, by norm_num, ?_⟩
    have h45 : ((45 : ℝ) - (Geos.mk 0 42164).sublon) * π / 180 = π / 4 := by
      simp only [sub_zero]
      ring
    have hr : Real.sqrt (((63565838 / 10000 : ℝ) / (6378169 / 1000)) ^ 2) =
        (63565838 / 10000) / (6378169 / 1000) := Real.sqrt_sq (by norm_num)
    rw [h45, Real.cos_pi_div_four]
    simp only [zero_mul, zero_div, Real.tan_zero, mul_zero, Real.arctan_zero, Real.cos_zero,
      one_pow, mul_one, literalConst, sub_sub_cancel, hr]
    rw [mul_div_assoc, div_self (by norm_num), mul_one, hs2]
    nlinarith
  refine ⟨hvis, ?_⟩
  apply Geos.roundTrip_of_literal_eq literalConst literalConst_consistent (Geos.mk 0 42164)
  · show Real.sqrt 40681040 < 42164
    linarith
  · show Geos.sdLiteral = (42164 : ℝ) ^ 2 - Real.sqrt 40681040 ^ 2
    rw [hs2, Geos.sdLiteral]
    norm_num
  · exact hvis

/-! ### The image dumper -/

/-- C10 fails on the code: the inner loop of `ImageDumper::processImage` runs
the column index below `lines`, not below `columns`. For an image of 2 columns
and 1 line the only call is at `(0, 0)`, and column 1 is skipped; for an image
of 1 column and 2 lines the second call is at `(1, 0)`, which is out of range,
and line 1 is never reached. In neither case is the sequence of calls the
row-major enumeration of the pixels. -/
theorem ImageDumper.processImage_calls_not_rowMajor :
    ImageDumper.processImage_calls ⟨2, 1, Dbl.fin 1⟩ = [(0, 0)] ∧
      rowMajor 2 1 = [(0, 0), (1, 0)] ∧
      ImageDumper.processImage_calls ⟨1, 2, Dbl.fin 1⟩ = [(0, 0), (1, 0)] ∧
      ImageData.inRange ⟨1, 2, Dbl.fin 1⟩ 1 0 = false ∧
      rowMajor 1 2 = [(0, 0), (0, 1)] := by
  refine ⟨?_, ?_, ?_, ?_, ?_⟩ <;> decide

/-! ### The image dumper on square images -/

theorem ImageDumper.callsOn_of_inRange (d : ImageData) (cs : List (ℤ × ℤ))
    (h : ∀ p ∈ cs, d.inRange p.1 p.2 = true) : ImageDumper.callsOn d cs = cs := by
  induction cs with
  | nil => rfl
  | cons p cs ih =>
    obtain ⟨c, l⟩ := p
    have h1 : d.inRange c l = true := h (c, l) (List.mem_cons_self _ _)
    rw [ImageDumper.callsOn, if_pos h1, ih (fun q hq => h q (List.mem_cons_of_mem _ hq))]

theorem mem_loopRange {n i : ℤ} : i ∈ loopRange n ↔ 0 ≤ i ∧ i < n := by
  simp only [loopRange, List.mem_map, List.mem_range]
  constructor
  · rintro ⟨j, hj, rfl⟩
    simp only [Int.ofNat_eq_coe]
    omega
  · rintro ⟨h0, h1⟩
    exact ⟨i.toNat, by omega, by simp only [Int.ofNat_eq_coe]; omega⟩

/-- When the image has as many columns as lines, the dumper does visit the
pixels in row-major order. -/
theorem ImageDumper.processImage_calls_square (d : ImageData) (h : d.columns = d.lines) :
    ImageDumper.processImage_calls d = rowMajor d.columns d.lines := by
  rw [ImageDumper.processImage_calls, ImageDumper.callsOn_of_inRange, ImageDumper.loopCoords,
    rowMajor, h]
  intro p hp
  simp only [ImageDumper.loopCoords, List.mem_flatMap, List.mem_map] at hp
  obtain ⟨l, hl, c, hc, rfl⟩ := hp
  rw [mem_loopRange] at hl hc
  simp only [ImageData.inRange, decide_eq_true_eq]
  omega

/-! ### Bits per pixel -/

theorem acquireImage.le_maxLoop (m : ℕ) (ps : List ℕ) : m ≤ acquireImage.maxLoop m ps := by
  induction ps generalizing m with
  | nil => exact le_rfl
  | cons p ps ih =>
    simp only [acquireImage.maxLoop]
    split_ifs with h
    · exact le_trans (Nat.le_of_lt h) (ih p)
    · exact ih m

theorem acquireImage.mem_le_maxLoop (m : ℕ) (ps : List ℕ) (q : ℕ) (hq : q ∈ ps) :
    q ≤ acquireImage.maxLoop m ps := by
  induction ps generalizing m with
  | nil => cases hq
  | cons p ps ih =>
    simp only [acquireImage.maxLoop]
    rcases List.mem_cons.mp hq with rfl | hq
    · split_ifs with h
      · exact acquireImage.le_maxLoop q ps
      · exact le_trans (Nat.le_of_not_lt h) (acquireImage.le_maxLoop m ps)
    · exact ih _ hq

theorem acquireImage.maxLoop_mem (m : ℕ) (ps : List ℕ) :
    acquireImage.maxLoop m ps ∈ m :: ps := by
  induction ps generalizing m with
  | nil => simp [acquireImage.maxLoop]
  | cons p ps ih =>
    simp only [acquireImage.maxLoop]
    split_ifs with h
    · exact List.mem_cons_of_mem _ (ih p)
    · rcases List.mem_cons.mp (ih m) with h1 | h1
      · rw [h1]
        exact List.mem_cons_self _ _
      · exact List.mem_cons_of_mem _ (List.mem_cons_of_mem _ h1)

/-- The integer model of `(int)ceil(log2(v))` agrees with the real expression:
for `v ≥ 1` it is the ceiling of the base-2 logarithm of `v`. -/
theorem acquireImage.ceilLog2_eq_ceil_logb (v : ℕ) (hv : 1 ≤ v) :
    acquireImage.ceilLog2 v = some ⌈Real.logb 2 (v : ℝ)⌉ := by
  have h := Real.ceil_logb_natCast (b := 2) (r := (v : ℝ)) (Nat.cast_nonneg v)
  rw [Int.clog_natCast] at h
  simp only [Nat.cast_ofNat] at h
  rw [acquireImage.ceilLog2, if_neg (by omega), h]

/-- Where `max + 1` does not wrap around (8-bit and 16-bit samples, and 32-bit
samples below `2^32 - 1`), `bpp` is the least `b` with `max < 2^b`, and every
sample is below `2^bpp`. -/
theorem acquireImage.bpp_of_no_wrap (bits : ℕ) (p : ℕ) (ps : List ℕ)
    (hw : bits < 32 ∨ ∀ q ∈ p :: ps, q < 2 ^ 32 - 1) :
    ∃ b : ℕ, acquireImage.bpp bits (p :: ps) = some (b : ℤ) ∧
      b = Nat.clog 2 (acquireImage.maxLoop p ps + 1) ∧
      (∀ q ∈ p :: ps, q < 2 ^ b) ∧
      (∀ b' : ℕ, acquireImage.maxLoop p ps < 2 ^ b' → b ≤ b') := by
  have hv : acquireImage.maxPlusOne bits (acquireImage.maxLoop p ps) =
      acquireImage.maxLoop p ps + 1 := by
    rcases hw with hw | hw
    · simp [acquireImage.maxPlusOne, hw]
    · have := hw _ (acquireImage.maxLoop_mem p ps)
      simp only [acquireImage.maxPlusOne]
      split_ifs
      · rfl
      · exact Nat.mod_eq_of_lt (by omega)
  refine ⟨Nat.clog 2 (acquireImage.maxLoop p ps + 1), ?_, rfl, ?_, ?_⟩
  · simp [acquireImage.bpp, hv, acquireImage.ceilLog2]
  · intro q hq
    have h1 : q ≤ acquireImage.maxLoop p ps := by
      rcases List.mem_cons.mp hq with rfl | hq
      · exact acquireImage.le_maxLoop q ps
      · exact acquireImage.mem_le_maxLoop p ps q hq
    have h2 := Nat.le_pow_clog (b := 2) (by norm_num) (acquireImage.maxLoop p ps + 1)
    omega
  · intro b' hb'
    exact (Nat.le_pow_iff_clog_le (by norm_num)).mp (by omega)

/-- C5 fails on the code for 32-bit samples: when the largest sample is
`2^32 - 1`, the sum `max + 1` wraps around to 0 in unsigned 32-bit arithmetic,
`log2(0)` is `-∞` and the conversion to `int` has no defined value, where the
claim asks for `bpp = 32`. The claim's two examples hold: a largest sample of
255 gives 8 and a largest sample of 256 gives 9. -/
theorem acquireImage.bpp_wraps_at_32_bits :
    acquireImage.maxPlusOne 32 (acquireImage.maxLoop 4294967295 [7]) = 0 ∧
      acquireImage.bpp 32 [4294967295, 7] = none ∧
      acquireImage.bpp 32 [4294967295, 7] ≠ some 32 ∧
      acquireImage.bpp 8 [3, 255, 0] = some 8 ∧
      acquireImage.bpp 16 [256, 12] = some 9 := by
  refine ⟨by decide, ?_, ?_, ?_, ?_⟩
  · simp [acquireImage.bpp, acquireImage.ceilLog2, acquireImage.maxPlusOne,
      acquireImage.maxLoop]
  · simp [acquireImage.bpp, acquireImage.ceilLog2, acquireImage.maxPlusOne,
      acquireImage.maxLoop]
  · simp [acquireImage.bpp, acquireImage.ceilLog2, acquireImage.maxPlusOne,
      acquireImage.maxLoop, Nat.clog]
  · simp [acquireImage.bpp, acquireImage.ceilLog2, acquireImage.maxPlusOne,
      acquireImage.maxLoop, Nat.clog]

/-! ### Seconds since 2000 -/

theorem yearLength_eq (y : ℤ) :
    yearLength y = 365 + (y / 4 - y / 100 + y / 400) -
      ((y - 1) / 4 - (y - 1) / 100 + (y - 1) / 400) := by
  simp only [yearLength, isLeapYear, decide_eq_true_eq]
  split_ifs with h <;> omega

theorem daysOfYearsFrom2000_eq (n : ℕ) :
    daysOfYearsFrom2000 n =
      365 * n + ((1999 + n : ℤ) / 4 - (1999 + n : ℤ) / 100 + (1999 + n : ℤ) / 400) - 484 := by
  induction n with
  | zero => simp [daysOfYearsFrom2000]
  | succ n ih =>
    rw [daysOfYearsFrom2000, ih, yearLength_eq]
    push_cast
    omega

theorem daysOfYearsBefore2000_eq (n : ℕ) :
    daysOfYearsBefore2000 n =
      365 * n - ((1999 - n : ℤ) / 4 - (1999 - n : ℤ) / 100 + (1999 - n : ℤ) / 400) + 484 := by
  induction n with
  | zero => simp [daysOfYearsBefore2000]
  | succ n ih =>
    rw [daysOfYearsBefore2000, ih, yearLength_eq]
    push_cast
    omega

/-- The days in the months before month `m`, counted month by month, are the
table entry of the C library plus the leap day. -/
theorem sum_monthLength_eq (y m : ℤ) (h1 : 1 ≤ m) (h12 : m ≤ 12) :
    ((List.range (m.toNat - 1)).map (fun i => monthLength y (i + 1))).sum =
      daysBeforeMonth (m - 1) + (if isLeapYear y ∧ 2 ≤ m - 1 then 1 else 0) := by
  interval_cases m <;> cases h : isLeapYear y <;>
    simp [List.range_succ, monthLength, daysBeforeMonth, h]

/-- The reference count of days, in closed form. -/
theorem daysSince2000_eq (y m d : ℤ) (h1 : 1 ≤ m) (h12 : m ≤ 12) :
    daysSince2000 y m d =
      365 * (y - 2000) + ((y - 1) / 4 - (y - 1) / 100 + (y - 1) / 400) - 484 +
        daysBeforeMonth (m - 1) + (if isLeapYear y ∧ 2 ≤ m - 1 then 1 else 0) + (d - 1) := by
  rw [daysSince2000, sum_monthLength_eq y m h1 h12]
  split_ifs with hy h2 h2
  · rw [daysOfYearsFrom2000_eq, Int.toNat_of_nonneg (by omega)]
    omega
  · rw [daysOfYearsFrom2000_eq, Int.toNat_of_nonneg (by omega)]
    omega
  · rw [daysOfYearsBefore2000_eq, Int.toNat_of_nonneg (by omega)]
    omega
  · rw [daysOfYearsBefore2000_eq, Int.toNat_of_nonneg (by omega)]
    omega

/-- The value of `forecastSeconds2000` whatever `TZ` is, and the environment
it leaves behind. -/
theorem Image.forecastSeconds2000_eq (tzdata : Option String → Tm → ℤ) (env : Env) (img : Image)
    (h1 : 1 ≤ img.month) (h12 : img.month ≤ 12) :
    img.forecastSeconds2000 tzdata env =
      (utcSecondsSince2000 img.year img.month img.day img.hour img.minute, env) := by
  have henv : (match env.TZ with
      | some v => ({ TZ := some v } : Env)
      | none => { TZ := none }) = env := by
    cases env with
    | mk tz => cases tz <;> rfl
  simp only [Image.forecastSeconds2000, henv, mktime, utcOffset, if_true, timegm, Tm.yday,
    utcSecondsSince2000, daysSince2000_eq _ _ _ h1 h12, sub_add_cancel, Prod.mk.injEq, and_true]
  split_ifs <;> omega

/-- C7: for every image whose date and time fields form a valid calendar
date-time, whatever the value of `TZ` in the environment and whatever the
time-zone data, `forecastSeconds2000` returns the number of seconds from
2000-01-01T00:00:00 UTC to that date-time read as UTC, which is the UTC
calendar-to-Unix-epoch value minus 946684800; 2000-01-01 00:00 gives 0 and
2004-01-19 12:00 gives 127828800. -/
theorem Image.forecastSeconds2000_utc (tzdata : Option String → Tm → ℤ) (env : Env)
    (img : Image) (hv : img.validDateTime) :
    (img.forecastSeconds2000 tzdata env).1 =
        utcSecondsSince2000 img.year img.month img.day img.hour img.minute ∧
      (img.forecastSeconds2000 tzdata env).1 =
        timegm ⟨0, img.minute, img.hour, img.day, img.month - 1, img.year - 1900⟩ -
          946684800 ∧
      ((Image.mk 2000 1 1 0 0 img.column_factor).forecastSeconds2000 tzdata env).1 = 0 ∧
      ((Image.mk 2004 1 19 12 0 img.column_factor).forecastSeconds2000 tzdata env).1 =
        127828800 := by
  obtain ⟨-, -, h1, h12, -⟩ := hv
  refine ⟨?_, ?_, ?_, ?_⟩
  · rw [Image.forecastSeconds2000_eq tzdata env img h1 h12]
  · simp [Image.forecastSeconds2000, mktime, utcOffset]
  · simp [Image.forecastSeconds2000, mktime, utcOffset, timegm, Tm.yday, daysBeforeMonth,
      isLeapYear]
  · simp [Image.forecastSeconds2000, mktime, utcOffset, timegm, Tm.yday, daysBeforeMonth,
      isLeapYear]

/-- The property C7 for the image of 2004-02-29 23:59, in a process whose
`TZ` is `Europe/Rome` and whose time-zone data put every zone one hour east
of UTC. -/
theorem Image.forecastSeconds2000_utc_witness :
    (Image.mk 2004 2 29 23 59 13642337).validDateTime ∧
      ((Image.mk 2004 2 29 23 59 13642337).forecastSeconds2000 (fun _ _ => 3600)
          ⟨some "Europe/Rome"⟩).1 =
        utcSecondsSince2000 2004 2 29 23 59 ∧
      ((Image.mk 2004 2 29 23 59 13642337).forecastSeconds2000 (fun _ _ => 3600)
          ⟨some "Europe/Rome"⟩).1 =
        timegm ⟨0, 59, 23, 29, 2 - 1, 2004 - 1900⟩ - 946684800 ∧
      ((Image.mk 2000 1 1 0 0 13642337).forecastSeconds2000 (fun _ _ => 3600)
          ⟨some "Europe/Rome"⟩).1 = 0 ∧
      ((Image.mk 2004 1 19 12 0 13642337).forecastSeconds2000 (fun _ _ => 3600)
          ⟨some "Europe/Rome"⟩).1 = 127828800 :=
  have hv : (Image.mk 2004 2 29 23 59 13642337).validDateTime := by
    simp [Image.validDateTime, monthLength, isLeapYear]
  ⟨hv, Image.forecastSeconds2000_utc (fun _ _ => 3600) ⟨some "Europe/Rome"⟩
    (Image.mk 2004 2 29 23 59 13642337) hv⟩

/-! ### `decimalScale` -/

theorem floor_logb_ten {a : ℝ} {n : ℤ} (h1 : (10 : ℝ) ^ n ≤ a) (h2 : a < (10 : ℝ) ^ (n + 1)) :
    ⌊Real.logb 10 a⌋ = n := by
  have ha : 0 < a := lt_of_lt_of_le (zpow_pos (by norm_num) n) h1
  rw [Int.floor_eq_iff]
  constructor
  · rw [Real.le_logb_iff_rpow_le (by norm_num) ha, Real.rpow_intCast]
    exact h1
  · rw [Real.logb_lt_iff_lt_rpow (by norm_num) ha]
    have e : (n : ℝ) + 1 = ((n + 1 : ℤ) : ℝ) := by push_cast; ring
    rw [e, Real.rpow_intCast]
    exact h2

theorem Dbl.toInt_fin_intCast (n : ℤ) (h1 : -2147483648 ≤ n) (h2 : n ≤ 2147483647) :
    Dbl.toInt (Dbl.fin (n : ℝ)) = some n := by
  simp [Dbl.toInt, h1, h2]

/-- For a positive slope with `10^n ≤ slope < 10^(n+1)`, `decimalScale` is
`-n` when `10^(-n)` equals the slope and `-n + 1` otherwise. -/
theorem ImageData.decimalScale_of_bounds (d : ImageData) (a : ℝ) (n : ℤ)
    (hs : d.slope = Dbl.fin a) (h1 : (10 : ℝ) ^ n ≤ a) (h2 : a < (10 : ℝ) ^ (n + 1))
    (hn1 : -2147483648 ≤ n) (hn2 : n ≤ 2147483647) :
    d.decimalScale = if (10 : ℝ) ^ (-n) = a then some (-n) else some (-n + 1) := by
  have ha : 0 < a := lt_of_lt_of_le (zpow_pos (by norm_num) n) h1
  simp only [ImageData.decimalScale, hs, Dbl.log10, if_pos ha, Dbl.floor, Dbl.map,
    floor_logb_ten h1 h2, Dbl.toInt_fin_intCast n hn1 hn2, Dbl.exp10, Dbl.eq,
    decide_eq_true_eq]

/-- The slope 0.003 has decimal scale 4. -/
theorem ImageData.decimalScale_three_thousandths (columns lines : ℤ) :
    (ImageData.mk columns lines (Dbl.fin (3 / 1000))).decimalScale = some 4 := by
  rw [ImageData.decimalScale_of_bounds _ (3 / 1000) (-3) rfl (by norm_num) (by norm_num)
    (by norm_num) (by norm_num)]
  norm_num

/-- The slope 0.01 has decimal scale 3: the test `exp10(res) == slope`
compares `10^2` with the slope. -/
theorem ImageData.decimalScale_hundredth (columns lines : ℤ) :
    (ImageData.mk columns lines (Dbl.fin (1 / 100))).decimalScale = some 3 := by
  rw [ImageData.decimalScale_of_bounds _ (1 / 100) (-2) rfl (by norm_num) (by norm_num)
    (by norm_num) (by norm_num)]
  norm_num

/-- C3, as the code behaves: a buffer with slope 0.003 has `decimalScale()` 4,
where `decimalScale` computes `k = -floor(log10(slope))` (here 3) and returns
`k` when `10^k == slope` and `k + 1` otherwise. -/
theorem ImageData.decimalScale_reference_slope (columns lines : ℤ) :
    ⌊Real.logb 10 (3 / 1000 : ℝ)⌋ = -3 ∧
      (ImageData.mk columns lines (Dbl.fin (3 / 1000))).decimalScale =
        (if (10 : ℝ) ^ (3 : ℤ) = 3 / 1000 then some 3 else some (3 + 1)) ∧
      (ImageData.mk columns lines (Dbl.fin (3 / 1000))).decimalScale = some 4 := by
  refine ⟨floor_logb_ten (by norm_num) (by norm_num), ?_,
    ImageData.decimalScale_three_thousandths columns lines⟩
  rw [ImageData.decimalScale_three_thousandths]
  norm_num

/-- C3 as stated fails: the buffer with slope 0.003 does not have
`decimalScale()` 3. -/
theorem ImageData.decimalScale_three_thousandths_ne_three :
    ¬ ((ImageData.mk 4 4 (Dbl.fin (1 / 100))).decimalScale = some 2 ∧
      (ImageData.mk 4 4 (Dbl.fin (3 / 1000))).decimalScale = some 3) := by
  rw [ImageData.decimalScale_three_thousandths]
  intro h
  have := h.2
  simp at this

/-! ### `pixelSize` -/

/-- Evaluation of `pixelSize` for a non-zero column factor: the tangent is
taken of the reciprocal of the column resolution factor, in degrees. -/
theorem Image.pixelSize_eq (k : Const) (img : Image) (h : img.column_factor ≠ 0) :
    img.pixelSize k =
      Dbl.fin ((k.ORBIT_RADIUS - k.EARTH_RADIUS) *
        Real.tan (1 / img.columnResolutionFactor * π / 180)) := by
  have hc : (img.column_factor : ℝ) ≠ 0 := Int.cast_ne_zero.mpr h
  have h2 : ((2 : ℝ) ^ (-16 : ℤ)) ≠ 0 := zpow_ne_zero _ (by norm_num)
  have e : (1 : ℝ) / (img.column_factor : ℝ) / (2 : ℝ) ^ (-16 : ℤ) =
      1 / img.columnResolutionFactor := by
    rw [Image.columnResolutionFactor, div_div]
  simp only [Image.pixelSize, Dbl.exp2, PI, Dbl.fin_sub_fin, Dbl.fin_div_fin _ hc,
    Dbl.fin_div_fin _ h2, Dbl.fin_mul_fin, Dbl.fin_div_180, Dbl.tan_fin, e]

/-- C4, as the code behaves: for every image whose column resolution factor
(the raw column factor scaled by `2^-16`) is strictly positive, `pixelSize()`
is `(ORBIT_RADIUS - EARTH_RADIUS) * tan((1 / columnResolutionFactor) * π / 180)`:
the angle is the reciprocal of the column resolution factor, in degrees. -/
theorem Image.pixelSize_formula (k : Const) (img : Image)
    (h : 0 < img.columnResolutionFactor) :
    img.pixelSize k =
      Dbl.fin ((k.ORBIT_RADIUS - k.EARTH_RADIUS) *
        Real.tan (1 / img.columnResolutionFactor * π / 180)) := by
  apply Image.pixelSize_eq
  intro h0
  rw [Image.columnResolutionFactor, h0] at h
  simp at h

/-- The amended C4 at the sample constants, for the column factor 13642337. -/
theorem Image.pixelSize_formula_witness :
    0 < (Image.mk 2004 1 19 12 0 13642337).columnResolutionFactor ∧
      (Image.mk 2004 1 19 12 0 13642337).pixelSize cgms =
        Dbl.fin ((cgms.ORBIT_RADIUS - cgms.EARTH_RADIUS) *
          Real.tan (1 / (Image.mk 2004 1 19 12 0 13642337).columnResolutionFactor *
            π / 180)) :=
  have h : 0 < (Image.mk 2004 1 19 12 0 13642337).columnResolutionFactor := by
    norm_num [Image.columnResolutionFactor]
  ⟨h, Image.pixelSize_formula cgms (Image.mk 2004 1 19 12 0 13642337) h⟩

/-- C4 as stated fails: for the column factor 13642337 of the SEVIRI
full-disk grid, whose column resolution factor is about 208.17, `pixelSize()`
is not `(ORBIT_RADIUS - EARTH_RADIUS) * tan(columnResolutionFactor * π / 180)`. -/
theorem Image.pixelSize_not_direct_factor :
    0 < (Image.mk 2004 1 19 12 0 13642337).columnResolutionFactor ∧
      (Image.mk 2004 1 19 12 0 13642337).pixelSize cgms ≠
        Dbl.fin ((cgms.ORBIT_RADIUS - cgms.EARTH_RADIUS) *
          Real.tan ((Image.mk 2004 1 19 12 0 13642337).columnResolutionFactor * π / 180)) := by
  have hpos : 0 < (Image.mk 2004 1 19 12 0 13642337).columnResolutionFactor := by
    norm_num [Image.columnResolutionFactor]
  refine ⟨hpos, ?_⟩
  rw [Image.pixelSize_eq cgms _ (by norm_num)]
  intro h
  injection h with h
  have hR : cgms.ORBIT_RADIUS - cgms.EARTH_RADIUS ≠ 0 := by norm_num [cgms]
  have ht := mul_left_cancel₀ hR h
  have hv : (Image.mk 2004 1 19 12 0 13642337).columnResolutionFactor = 13642337 / 65536 := by
    norm_num [Image.columnResolutionFactor]
  rw [hv] at ht
  have hp := Real.pi_pos
  rw [← Real.tan_periodic.sub_eq ((13642337 / 65536 : ℝ) * π / 180)] at ht
  have ha : (1 / (13642337 / 65536 : ℝ) * π / 180) ∈ Set.Ioo (-(π / 2)) (π / 2) := by
    constructor
    · have : 0 < (1 / (13642337 / 65536 : ℝ) * π / 180) := by positivity
      linarith
    · have : (1 / (13642337 / 65536 : ℝ) * π / 180) = (65536 / (13642337 * 180)) * π := by
        ring
      rw [this]
      nlinarith
  have hb : ((13642337 / 65536 : ℝ) * π / 180 - π) ∈ Set.Ioo (-(π / 2)) (π / 2) := by
    have : ((13642337 / 65536 : ℝ) * π / 180 - π) = (1845857 / 11796480) * π := by ring
    rw [this]
    constructor <;> nlinarith
  have heq := Real.injOn_tan ha hb ht
  have : (1 / (13642337 / 65536 : ℝ) * π / 180) - ((13642337 / 65536 : ℝ) * π / 180 - π) =
      (-(1845857 / 11796480 - 65536 / (13642337 * 180))) * π := by ring
  have h0 : (-(1845857 / 11796480 - 65536 / (13642337 * 180) : ℝ)) * π < 0 := by
    apply mul_neg_of_neg_of_pos _ hp
    norm_num
  linarith

end

end msat
